import Mathlib

/-!
Verification development for the request-shaping and response-normalization
core of the `n8n-nodes-openai-gpt5` workflow node
(`src/nodes/OpenAiGpt5/OpenAiGpt5.node.ts`).  The source file contains two
near-duplicate node variants; both request builders, the file-reference
normalizer `parseFileInput`, and the response extractor are embedded here.

Strings are modelled as `List Char` (`Str`) so that the trimming, splitting
and scanning logic of the source can be stated and proved by structural
recursion.  JavaScript values flowing through the node (parameters, request
bodies, provider responses) are modelled by the JSON-like inductive `JVal`.
-/

/-- Character strings, modelled as lists of characters. -/
abbrev Str := List Char

/-- Model of the JavaScript whitespace class used by `String.prototype.trim`
(space, tab, line feed, carriage return, vertical tab, form feed). -/
def wsChar (c : Char) : Bool :=
  c = ' ' || c = '\t' || c = '\n' || c = '\r' || c = Char.ofNat 11 || c = Char.ofNat 12

/-- Drop leading whitespace (left half of JS `trim`). -/
def trimL (l : Str) : Str := l.dropWhile wsChar

/-- Drop trailing whitespace (right half of JS `trim`). -/
def trimR (l : Str) : Str := (l.reverse.dropWhile wsChar).reverse

/-- Model of JS `String.prototype.trim`. -/
def trim (l : Str) : Str := trimL (trimR l)

/-- Model of JS `String.prototype.split` with a one-character separator:
`splitChar sep l` returns the (always non-empty) list of chunks of `l`
between occurrences of `sep`. -/
def splitChar (sep : Char) : Str → List Str
  | [] => [[]]
  | c :: l =>
    if c = sep then [] :: splitChar sep l
    else
      match splitChar sep l with
      | [] => [[c]]
      | p :: ps => (c :: p) :: ps

/-- Model of JS `String.prototype.includes` for a one-character needle. -/
def containsC (l : Str) (c : Char) : Bool := l.any (fun x => x = c)

/-- Model of JS `String.prototype.startsWith`. -/
def startsW (l pre : Str) : Bool := pre.isPrefixOf l

/-- Model of JS `String.prototype.endsWith`. -/
def endsW (l suf : Str) : Bool := suf.isSuffixOf l

/-- Model of JS `String.prototype.includes` for an arbitrary needle. -/
def containsSub : Str → Str → Bool
  | [], sub => sub.isEmpty
  | l@(_ :: t), sub => sub.isPrefixOf l || containsSub t sub

/-- JSON-like values: the shapes a JavaScript value reaching the node's
core logic can take (numbers modelled as rationals). -/
inductive JVal where
  | jnull : JVal
  | jbool : Bool → JVal
  | jnum : Rat → JVal
  | jstr : Str → JVal
  | jarr : List JVal → JVal
  | jobj : List (Str × JVal) → JVal
  deriving Repr

/-- Shorthand: build a `Str` from a string literal. -/
def sd (s : String) : Str := s.data

/-- Shorthand: build a `JVal` string from a string literal. -/
def js (s : String) : JVal := JVal.jstr s.data

/-- JS truthiness test for the modelled values (`NaN` is not modelled). -/
def truthy : JVal → Bool
  | .jnull => false
  | .jbool b => b
  | .jnum q => q ≠ 0
  | .jstr s => s ≠ []
  | .jarr _ => true
  | .jobj _ => true

/-- Property lookup on a modelled JS object (`v.key`); `none` models
`undefined`.  Object keys are assumed distinct, as produced by the node. -/
def getProp (v : JVal) (k : Str) : Option JVal :=
  match v with
  | .jobj fs => fs.lookup k
  | _ => none

/-- Truthiness of a property access (`if (v.key) ...`). -/
def truthyProp (v : JVal) (k : Str) : Bool :=
  match getProp v k with
  | some x => truthy x
  | none => false

/-- Decimal rendering of the rationals used to model JS numbers. -/
def ratToStr (q : Rat) : Str :=
  (if q.den = 1 then toString q.num else toString q).data

mutual

/-- Model of the JS `String(v)` conversion (arrays join their elements with
commas, plain objects render as the `[object Object]` sentinel). -/
def toStrJS : JVal → Str
  | .jnull => sd "null"
  | .jbool true => sd "true"
  | .jbool false => sd "false"
  | .jnum q => ratToStr q
  | .jstr s => s
  | .jarr xs => arrJoin xs
  | .jobj _ => sd "[object Object]"

/-- Elements of an array joined by commas, as JS `Array.prototype.toString`
does (`null` elements render as the empty string). -/
def arrJoin : List JVal → Str
  | [] => []
  | x :: xs =>
    (match x with
     | .jnull => []
     | v => toStrJS v) ++ (if xs.isEmpty then [] else ',' :: arrJoin xs)

end

/-- Escaping of quote and backslash characters inside a JSON string literal. -/
def escStr : Str → Str
  | [] => []
  | c :: l =>
    (if c = '"' || c = '\\' then ['\\', c] else [c]) ++ escStr l

mutual

/-- Model of `JSON.stringify` on the modelled values (no added whitespace,
plain escaping of quotes and backslashes). -/
def jsonStringify : JVal → Str
  | .jnull => sd "null"
  | .jbool true => sd "true"
  | .jbool false => sd "false"
  | .jnum q => ratToStr q
  | .jstr s => '"' :: escStr s ++ ['"']
  | .jarr xs => '[' :: joinArr xs ++ [']']
  | .jobj fs => '{' :: joinFields fs ++ ['}']

/-- Array elements of a `JSON.stringify` rendering, comma separated. -/
def joinArr : List JVal → Str
  | [] => []
  | x :: xs => jsonStringify x ++ (if xs.isEmpty then [] else ',' :: joinArr xs)

/-- Object fields of a `JSON.stringify` rendering, comma separated. -/
def joinFields : List (Str × JVal) → Str
  | [] => []
  | (k, v) :: fs =>
    ('"' :: escStr k ++ ['"', ':']) ++ jsonStringify v ++
      (if fs.isEmpty then [] else ',' :: joinFields fs)

end

/-! ### A model of `JSON.parse`
Fuel-indexed recursive-descent parser used to embed the `JSON.parse` calls of
`parseFileInput` and of the bulk-file fields.  It covers the JSON grammar the
node's inputs use (strings with standard escapes, numbers with optional sign,
fraction and exponent, booleans, null, arrays, objects). -/

/-- JSON source whitespace. -/
def jsonWs (c : Char) : Bool := c = ' ' || c = '\t' || c = '\n' || c = '\r'

/-- Hexadecimal digit value, if any. -/
def hexVal (c : Char) : Option Nat :=
  if '0' ≤ c ∧ c ≤ '9' then some (c.toNat - '0'.toNat)
  else if 'a' ≤ c ∧ c ≤ 'f' then some (c.toNat - 'a'.toNat + 10)
  else if 'A' ≤ c ∧ c ≤ 'F' then some (c.toNat - 'A'.toNat + 10)
  else none

/-- Parse the remainder of a JSON string literal (after the opening quote),
returning the decoded characters and the rest of the input. -/
def parseStrRest : Str → Option (Str × Str)
  | [] => none
  | '"' :: r => some ([], r)
  | '\\' :: 'u' :: h1 :: h2 :: h3 :: h4 :: r =>
    match hexVal h1, hexVal h2, hexVal h3, hexVal h4 with
    | some a, some b, some c, some d =>
      (parseStrRest r).map (fun (s, rest) =>
        (Char.ofNat (((a * 16 + b) * 16 + c) * 16 + d) :: s, rest))
    | _, _, _, _ => none
  | '\\' :: e :: r =>
    let dec : Option Char :=
      if e = '"' then some '"'
      else if e = '\\' then some '\\'
      else if e = '/' then some '/'
      else if e = 'n' then some '\n'
      else if e = 't' then some '\t'
      else if e = 'r' then some '\r'
      else if e = 'b' then some (Char.ofNat 8)
      else if e = 'f' then some (Char.ofNat 12)
      else none
    match dec with
    | some c => (parseStrRest r).map (fun (s, rest) => (c :: s, rest))
    | none => none
  | c :: r => (parseStrRest r).map (fun (s, rest) => (c :: s, rest))

/-- An ASCII decimal digit. -/
def isDigitC (c : Char) : Bool := '0' ≤ c && c ≤ '9'

/-- Digits to a natural number. -/
def digitsToNat (l : Str) : Nat :=
  l.foldl (fun acc c => acc * 10 + (c.toNat - '0'.toNat)) 0

/-- Parse a JSON number starting at the head of the input. -/
def parseNum (l : Str) : Option (Rat × Str) :=
  let (neg, l1) := match l with
    | '-' :: r => (true, r)
    | _ => (false, l)
  let ds := l1.takeWhile isDigitC
  if ds = [] then none
  else
    let l2 := l1.drop ds.length
    let ip : Rat := (digitsToNat ds : Int)
    let (q1, l3) : Rat × Str := match l2 with
      | '.' :: r =>
        let fs := r.takeWhile isDigitC
        if fs = [] then (ip, l2)
        else (ip + (digitsToNat fs : Rat) / ((10 : Rat) ^ fs.length), r.drop fs.length)
      | _ => (ip, l2)
    let fracOk : Bool := match l2 with
      | '.' :: r => ¬ (r.takeWhile isDigitC) = []
      | _ => true
    if fracOk = false then none
    else
      let (q2, l4) : Option Rat × Str := match l3 with
        | e :: r =>
          if e = 'e' || e = 'E' then
            let (eneg, r1) := match r with
              | '-' :: r2 => (true, r2)
              | '+' :: r2 => (false, r2)
              | _ => (false, r)
            let es := r1.takeWhile isDigitC
            if es = [] then (none, l3)
            else
              let ex := digitsToNat es
              (some (if eneg then q1 / ((10 : Rat) ^ ex) else q1 * ((10 : Rat) ^ ex)),
               r1.drop es.length)
          else (some q1, l3)
        | [] => (some q1, l3)
      match q2 with
      | some q => some ((if neg then -q else q), l4)
      | none => none

mutual

/-- Parse a JSON value (leading whitespace allowed), with fuel. -/
def parseV : Nat → Str → Option (JVal × Str)
  | 0, _ => none
  | fu + 1, l =>
    let l := l.dropWhile jsonWs
    match l with
    | [] => none
    | c :: rest =>
      if c = '"' then (parseStrRest rest).map (fun (s, r) => (JVal.jstr s, r))
      else if c = '[' then
        let r1 := rest.dropWhile jsonWs
        match r1 with
        | ']' :: r2 => some (JVal.jarr [], r2)
        | _ =>
          (parseItems fu r1).map (fun (xs, r) => (JVal.jarr xs, r))
      else if c = '{' then
        let r1 := rest.dropWhile jsonWs
        match r1 with
        | '}' :: r2 => some (JVal.jobj [], r2)
        | _ =>
          (parseFields fu r1).map (fun (fs, r) => (JVal.jobj fs, r))
      else if (sd "true").isPrefixOf l then some (JVal.jbool true, l.drop 4)
      else if (sd "false").isPrefixOf l then some (JVal.jbool false, l.drop 5)
      else if (sd "null").isPrefixOf l then some (JVal.jnull, l.drop 4)
      else (parseNum l).map (fun (q, r) => (JVal.jnum q, r))

/-- Parse the comma-separated items of a non-empty JSON array, up to and
including the closing bracket. -/
def parseItems : Nat → Str → Option (List JVal × Str)
  | 0, _ => none
  | fu + 1, l =>
    match parseV fu l with
    | none => none
    | some (v, r) =>
      match r.dropWhile jsonWs with
      | ',' :: r1 => (parseItems fu r1).map (fun (xs, r2) => (v :: xs, r2))
      | ']' :: r1 => some ([v], r1)
      | _ => none

/-- Parse the comma-separated fields of a non-empty JSON object, up to and
including the closing brace. -/
def parseFields : Nat → Str → Option (List (Str × JVal) × Str)
  | 0, _ => none
  | fu + 1, l =>
    match l.dropWhile jsonWs with
    | '"' :: r =>
      match parseStrRest r with
      | none => none
      | some (k, r1) =>
        match r1.dropWhile jsonWs with
        | ':' :: r2 =>
          match parseV fu r2 with
          | none => none
          | some (v, r3) =>
            match r3.dropWhile jsonWs with
            | ',' :: r4 => (parseFields fu r4).map (fun (fs, r5) => ((k, v) :: fs, r5))
            | '}' :: r4 => some ([(k, v)], r4)
            | _ => none
        | _ => none
    | _ => none

end

/-- Model of `JSON.parse`: `none` models a thrown `SyntaxError`. -/
def jsonParse (l : Str) : Option JVal :=
  match parseV (l.length + 1) l with
  | some (v, r) => if r.dropWhile jsonWs = [] then some v else none
  | none => none

/-! ### Regular-expression scanners
Models of the two literal regular expressions in the source:
`/(https?:\/\/[^\s,\]]+|file_[a-zA-Z0-9]+)/g` (malformed-array fallback in
`parseFileInput`) and `/(https?:\/\/[^\s\]}"']+)/` (URL extraction in the
variant-1 bulk-file loop). -/

/-- An ASCII letter or digit (the `[a-zA-Z0-9]` class). -/
def isAlnum (c : Char) : Bool :=
  ('a' ≤ c && c ≤ 'z') || ('A' ≤ c && c ≤ 'Z') || ('0' ≤ c && c ≤ '9')

/-- Character class `[^\s,\]]` of the `parseFileInput` fallback pattern. -/
def urlBodyA (c : Char) : Bool := !(wsChar c || c = ',' || c = ']')

/-- Character class `[^\s\]}"']` of the bulk-file URL pattern. -/
def urlBodyB (c : Char) : Bool :=
  !(wsChar c || c = ']' || c = Char.ofNat 125 || c = '"' || c = Char.ofNat 39)

/-- Try one fixed scheme `pre` followed by `BODY+` at the head of the
input: returns the matched text and the rest. -/
def tryUrlPre (body : Char → Bool) (pre l : Str) : Option (Str × Str) :=
  if pre.isPrefixOf l then
    let rest := l.drop pre.length
    let b := rest.takeWhile body
    if b = [] then none else some (pre ++ b, rest.drop b.length)
  else none

/-- Try `https?:\/\/BODY+` at the head of the input for a given body class
(the greedy optional `s` tries `https` before `http`). -/
def matchUrlAt (body : Char → Bool) (l : Str) : Option (Str × Str) :=
  match tryUrlPre body (sd "https://") l with
  | some r => some r
  | none => tryUrlPre body (sd "http://") l

/-- Try `file_[a-zA-Z0-9]+` at the head of the input. -/
def matchFileAt (l : Str) : Option (Str × Str) :=
  if (sd "file_").isPrefixOf l then
    let rest := l.drop 5
    let b := rest.takeWhile isAlnum
    if b = [] then none else some (sd "file_" ++ b, rest.drop b.length)
  else none

/-- One alternation step of the `parseFileInput` fallback pattern at the
current position. -/
def matchTokAt (l : Str) : Option (Str × Str) :=
  match matchUrlAt urlBodyA l with
  | some r => some r
  | none => matchFileAt l

/-- Global scan (`g` flag): leftmost matches, resuming after each match. -/
def scanAux : Nat → Str → List Str
  | 0, _ => []
  | _, [] => []
  | fu + 1, l@(_ :: t) =>
    match matchTokAt l with
    | some (m, rest) => m :: scanAux fu rest
    | none => scanAux fu t

/-- All matches of `/(https?:\/\/[^\s,\]]+|file_[a-zA-Z0-9]+)/g` in order;
`[]` models a `null` result of `String.prototype.match`. -/
def scanMatches (l : Str) : List Str := scanAux l.length l

/-- Leftmost match of `/(https?:\/\/[^\s\]}"']+)/`, if any (the variant-1
bulk-file URL extraction). -/
def firstUrl : Str → Option Str
  | [] => none
  | l@(_ :: t) =>
    match matchUrlAt urlBodyB l with
    | some (m, _) => some m
    | none => firstUrl t

/-! ### The file-reference normalizer `parseFileInput`
Embedding of the `parseFileInput` helper of the variant-2 `execute`
(`OpenAiGpt5.node.ts` lines 1311-1384). -/

/-- The string a JS array element is mapped to by the array branch of
`parseFileInput`: keyed structures prefer their `url`/`path`/`value`
property, other objects serialize, primitives stringify and trim. -/
def arrElemToStr (item : JVal) : Str :=
  match item with
  | .jobj _ | .jarr _ =>
    if truthyProp item (sd "url") then trim (toStrJS ((getProp item (sd "url")).getD .jnull))
    else if truthyProp item (sd "path") then trim (toStrJS ((getProp item (sd "path")).getD .jnull))
    else if truthyProp item (sd "value") then trim (toStrJS ((getProp item (sd "value")).getD .jnull))
    else jsonStringify item
  | v => trim (toStrJS v)

/-- One-level flattening, as `Array.prototype.flat()`. -/
def flat1 (xs : List JVal) : List JVal :=
  xs.flatMap fun x => match x with
    | .jarr ys => ys
    | v => [v]

/-- The array branch of `parseFileInput` (also reached through the `data` /
`body` recursion of the object branch). -/
def parseArrTokens (items : List JVal) : List Str :=
  ((flat1 items).map arrElemToStr).filter
    (fun t => t ≠ [] && t ≠ sd "[object Object]")

/-- Comma-splitting tail of the string branch: split on commas when present,
else yield the single trimmed token. -/
def commaOrSingle (t : Str) : List Str :=
  if containsC t ',' then ((splitChar ',' t).map trim).filter (· ≠ [])
  else [t]

/-- The string branch of `parseFileInput` on the (possibly untrimmed)
input string. -/
def parseStrTokens (s : Str) : List Str :=
  let t := trim s
  if t = [] then []
  else if startsW t (sd "[") && endsW t (sd "]") then
    match jsonParse t with
    | some (.jarr xs) => (xs.map (fun x => trim (toStrJS x))).filter (· ≠ [])
    | some _ => commaOrSingle t
    | none =>
      match scanMatches t with
      | [] => commaOrSingle t
      | ms => ms
  else commaOrSingle t

/-- First of the `url` / `path` / `value` properties of the object branch
whose value is truthy, if any. -/
def propPick (v : JVal) : Option JVal :=
  if truthyProp v (sd "url") then getProp v (sd "url")
  else if truthyProp v (sd "path") then getProp v (sd "path")
  else if truthyProp v (sd "value") then getProp v (sd "value")
  else none

/-- Final fallback of `parseFileInput`: stringify, trim, and drop the
meaningless sentinels. -/
def fallbackTokens (v : JVal) : List Str :=
  let str := trim (toStrJS v)
  if str ≠ [] ∧ str ≠ sd "[object Object]" ∧ str ≠ sd "undefined" ∧ str ≠ sd "null"
  then [str] else []

/-- Embedding of the `parseFileInput` helper: normalizes a heterogeneous
user-supplied value into an ordered list of reference tokens. -/
def parseFileInput (input : JVal) : List Str :=
  if truthy input = false then []
  else
    match input with
    | .jarr items => parseArrTokens items
    | .jstr s => parseStrTokens s
    | .jobj _ =>
      match getProp input (sd "data") with
      | some (.jarr d) => parseArrTokens d
      | _ =>
        match getProp input (sd "body") with
        | some (.jarr b) => parseArrTokens b
        | _ =>
          match propPick input with
          | some w => [trim (toStrJS w)]
          | none => fallbackTokens input
    | v => fallbackTokens v

/-! ### Variant-2 request builder
Embedding of the request-body assembly of the second node variant's
`execute` (`OpenAiGpt5.node.ts` lines 1386-1555): quick-mode overrides,
file-content assembly, optional parameters, reasoning block and the
web-search tool. -/

/-- The `location` sub-object of the web-search `userLocation` collection;
empty strings model unset fields. -/
structure Loc where
  country : Str
  city : Str
  region : Str
  timezone : Str

/-- The `webSearch` parameter collection of the variant-2 node.
`allowedDomains = some s` models a present string-typed value; empty
strings model unset string fields; `userLocation` models the nested
`userLocation.location` value. -/
structure WebSearchCfg where
  enabled : Bool
  searchContextSize : Str
  allowedDomains : Option Str
  includeSources : Bool
  userLocation : Option Loc

/-- The `options` parameter collection of the variant-2 node.  Empty
strings model unset string fields; `maxTokens`/`temperature` are `none`
when `undefined`. -/
structure Opts2 where
  model : Str
  quickMode : Bool
  reasoningEffort : Str
  reasoningSummary : Str
  maxTokens : Option Int
  temperature : Option Rat

/-- One invocation's inputs to the variant-2 request builder. -/
structure Req2Input where
  prompt : Str
  pdfFiles : JVal
  imageFiles : JVal
  options : Opts2
  webSearch : WebSearchCfg

/-- The quick-mode model substitution table (lines 1407-1413). -/
def quickSub (m : Str) : Str :=
  if m = sd "gpt-5" then sd "gpt-5-mini"
  else if m = sd "gpt-4.1" then sd "gpt-4.1-mini"
  else if m = sd "o3" then sd "o3-mini"
  else m

/-- `options.model || 'gpt-5'`. -/
def resolveModel (m : Str) : Str := if m = [] then sd "gpt-5" else m

/-- A PDF token's content segment (lines 1435-1448): file IDs become
`input_file`/`file_id`, URLs `input_file`/`file_url`; others are dropped. -/
def pdfSeg (t : Str) : Option JVal :=
  if startsW t (sd "file_") then
    some (.jobj [(sd "type", js "input_file"), (sd "file_id", .jstr t)])
  else if containsSub t (sd "http://") || containsSub t (sd "https://") then
    some (.jobj [(sd "type", js "input_file"), (sd "file_url", .jstr t)])
  else none

/-- An image token's content segment (lines 1451-1465). -/
def imgSeg (t : Str) : Option JVal :=
  if startsW t (sd "file_") then
    some (.jobj [(sd "type", js "input_image"), (sd "file_id", .jstr t)])
  else if containsSub t (sd "http://") || containsSub t (sd "https://") then
    some (.jobj [(sd "type", js "input_image"), (sd "image_url", .jstr t)])
  else none

/-- The `input` field value (lines 1426-1478): the one-element role-tagged
list when any file token was parsed, the scalar prompt otherwise. -/
def inputField2 (prompt : Str) (pdfIds images : List Str) : JVal :=
  if pdfIds ≠ [] || images ≠ [] then
    .jarr [.jobj [(sd "role", js "user"),
      (sd "content", .jarr
        (.jobj [(sd "type", js "input_text"), (sd "text", .jstr prompt)] ::
          (pdfIds.filterMap pdfSeg ++ images.filterMap imgSeg)))]]
  else .jstr prompt

/-- The optional `max_tokens` field (lines 1481-1483). -/
def maxTokF (mt : Option Int) : List (Str × JVal) :=
  match mt with
  | some n => if n ≠ 0 then [(sd "max_tokens", .jnum n)] else []
  | none => []

/-- The variant-2 `temperature` field (lines 1485-1487): present whenever a
temperature was supplied. -/
def tempF2 (t : Option Rat) : List (Str × JVal) :=
  match t with
  | some q => [(sd "temperature", .jnum q)]
  | none => []

/-- The variant-2 `reasoning` field (lines 1489-1504): built for
gpt-5 / gpt-4.1 family models when an effort or summary is set. -/
def reasonF2 (model effort summary : Str) : List (Str × JVal) :=
  if (effort ≠ [] || summary ≠ []) &&
      (startsW model (sd "gpt-5") || startsW model (sd "gpt-4.1")) then
    [(sd "reasoning", .jobj
      ((if effort ≠ [] then [(sd "effort", .jstr effort)] else []) ++
       (if summary ≠ [] && summary ≠ sd "none"
        then [(sd "summary", .jstr summary)] else [])))]
  else []

/-- The `filters.allowed_domains` entry of the web-search tool
(lines 1520-1531): comma split, trim, drop empties, cap at 20. -/
def domainsF (ad : Option Str) : List (Str × JVal) :=
  match ad with
  | some s =>
    if s ≠ [] then
      let domains := ((splitChar ',' s).map trim).filter (· ≠ [])
      if domains ≠ [] then
        [(sd "filters", .jobj
          [(sd "allowed_domains", .jarr ((domains.take 20).map .jstr))])]
      else []
    else []
  | none => []

/-- The `user_location` entry of the web-search tool (lines 1534-1546). -/
def userLocF (ul : Option Loc) : List (Str × JVal) :=
  match ul with
  | some loc =>
    if loc.country ≠ [] || loc.city ≠ [] || loc.region ≠ [] || loc.timezone ≠ [] then
      [(sd "user_location", .jobj
        ((sd "type", js "approximate") ::
         ((if loc.country ≠ [] then [(sd "country", .jstr loc.country)] else []) ++
          (if loc.city ≠ [] then [(sd "city", .jstr loc.city)] else []) ++
          (if loc.region ≠ [] then [(sd "region", .jstr loc.region)] else []) ++
          (if loc.timezone ≠ [] then [(sd "timezone", .jstr loc.timezone)] else []))))]
    else []
  | none => []

/-- The web-search tool object (lines 1509-1548) given the (possibly
quick-mode-overridden) local `searchContextSize` value. -/
def webTool (w : WebSearchCfg) (searchContextSize : Str) : JVal :=
  let contextSize := if searchContextSize ≠ [] then searchContextSize
                     else w.searchContextSize
  .jobj ((sd "type", js "web_search") ::
    ((if contextSize ≠ [] then [(sd "search_context_size", .jstr contextSize)] else []) ++
     domainsF w.allowedDomains ++ userLocF w.userLocation))

/-- The `tools` and `include` fields (lines 1507-1555). -/
def toolsF (w : WebSearchCfg) (searchContextSize : Str) : List (Str × JVal) :=
  if w.enabled then
    (sd "tools", .jarr [webTool w searchContextSize]) ::
      (if w.includeSources then
        [(sd "include", .jarr [js "web_search_call.action.sources"])]
       else [])
  else []

/-- Embedding of the variant-2 request-body assembly (lines 1394-1555). -/
def buildRequest2 (inp : Req2Input) : JVal :=
  let model0 := resolveModel inp.options.model
  let quickMode := inp.options.quickMode
  let reasoningEffort := if quickMode then sd "low" else inp.options.reasoningEffort
  let searchContextSize := if quickMode then sd "medium" else inp.webSearch.searchContextSize
  let model := if quickMode then quickSub model0 else model0
  let pdfIds := parseFileInput inp.pdfFiles
  let images := parseFileInput inp.imageFiles
  .jobj ([(sd "model", .jstr model),
          (sd "input", inputField2 inp.prompt pdfIds images)] ++
    maxTokF inp.options.maxTokens ++
    tempF2 inp.options.temperature ++
    reasonF2 model reasoningEffort inp.options.reasoningSummary ++
    toolsF inp.webSearch searchContextSize)

/-! ### Variant-1 request builder
Embedding of the request-body assembly of the first node variant's
`execute` (`OpenAiGpt5.node.ts` lines 631-868).  File uploads are external
collaborators: the content segments produced by the
`processAllBinaryItems` upload loop are passed in as `uploaded`. -/

/-- One entry of the `additionalFiles.files` collection. -/
structure AddFile where
  fileSource : Str
  fileId : Str
  url : Str

/-- The `additionalOptions` collection of the variant-1 node.  Empty strings
model unset string fields; `bulkFileArray` is `none` when unset. -/
structure Opts1 where
  model : Str
  maxTokens : Option Int
  temperature : Option Rat
  reasoningEffort : Str
  reasoningSummary : Str
  verbosity : Str
  additionalFiles : List AddFile
  bulkFileList : Str
  bulkFileArray : Option JVal
  bulkFileJsonString : Str

/-- Content segments from the `additionalFiles` collection (lines 664-683). -/
def addFileSegs (fs : List AddFile) : List JVal :=
  fs.filterMap fun f =>
    if f.fileSource = sd "fileId" then
      some (.jobj [(sd "type", js "input_file"), (sd "file_id", .jstr f.fileId)])
    else if f.fileSource = sd "url" then
      some (.jobj [(sd "type", js "input_image"),
                   (sd "image", .jobj [(sd "url", .jstr f.url)])])
    else none

/-- `typeof item === 'string' ? item : String(item)` (lines 704, 711, 721). -/
def bulkElemToStr (v : JVal) : Str :=
  match v with
  | .jstr s => s
  | w => toStrJS w

/-- The bulk-file token list assembled from the three bulk fields
(lines 686-727). -/
def bulkTokens (o : Opts1) : List Str :=
  (if o.bulkFileList ≠ [] && trim o.bulkFileList ≠ [] then
    ((splitChar ',' o.bulkFileList).map trim).filter (· ≠ [])
   else []) ++
  (match o.bulkFileArray with
   | some fa =>
     if truthy fa then
       match fa with
       | .jstr s =>
         if trim s ≠ [] then
           match jsonParse s with
           | some (.jarr xs) => xs.map bulkElemToStr
           | some _ => []
           | none => [trim s]
         else []
       | .jarr xs => xs.map bulkElemToStr
       | _ => []
     else []
   | none => []) ++
  (if o.bulkFileJsonString ≠ [] && trim o.bulkFileJsonString ≠ [] then
    match jsonParse o.bulkFileJsonString with
    | some (.jarr xs) => xs.map bulkElemToStr
    | _ => []
   else [])

/-- Classification of one bulk-file token (lines 730-755): file IDs become
`input_file` segments, URL-bearing tokens have their URL extracted and
become nested `input_image` segments, the rest are dropped. -/
def bulkSeg (tok : Str) : Option JVal :=
  if tok = [] then none
  else
    let t := trim tok
    if startsW t (sd "file_") then
      some (.jobj [(sd "type", js "input_file"), (sd "file_id", .jstr t)])
    else if containsSub t (sd "http://") || containsSub t (sd "https://") then
      let url := match firstUrl t with
        | some u => u
        | none => t
      some (.jobj [(sd "type", js "input_image"),
                   (sd "image", .jobj [(sd "url", .jstr url)])])
    else none

/-- Variant-1 `input` field (lines 637-658 and 812-817): for file-bearing
operations a one-element role-tagged list whose content is the prompt, the
primary file, then every additional segment; otherwise the scalar prompt
(additional segments are dropped, since `requestBody.input` is no array). -/
def inputField1 (operation prompt fileId : Str) (addSegs : List JVal) : JVal :=
  if operation = sd "uploadAndProcess" || operation = sd "processFileId" ||
      (operation = sd "aiToolMode" && fileId ≠ []) then
    .jarr [.jobj [(sd "role", js "user"),
      (sd "content", .jarr
        (.jobj [(sd "type", js "input_text"), (sd "text", .jstr prompt)] ::
         .jobj [(sd "type", js "input_file"), (sd "file_id", .jstr fileId)] ::
         addSegs))]]
  else .jstr prompt

/-- The variant-1 `temperature` field (lines 823-827): only added for
models outside the gpt-5 family. -/
def tempF1 (model : Str) (t : Option Rat) : List (Str × JVal) :=
  match t with
  | some q => if startsW model (sd "gpt-5") then [] else [(sd "temperature", .jnum q)]
  | none => []

/-- The variant-1 reasoning fields (lines 831-857): nested `reasoning` for
gpt-5 models; for o-series models a flat `reasoning_effort` plus, when a
summary is set, a nested `reasoning` holding only the summary. -/
def reasonF1 (model effort summary : Str) : List (Str × JVal) :=
  let conf : List (Str × JVal) :=
    (if effort ≠ [] then [(sd "effort", .jstr effort)] else []) ++
    (if summary ≠ [] && summary ≠ sd "none" then [(sd "summary", .jstr summary)] else [])
  if conf.isEmpty then []
  else
    if startsW model (sd "gpt-5") then [(sd "reasoning", .jobj conf)]
    else if startsW model (sd "o1") || startsW model (sd "o3") || startsW model (sd "o4") then
      (if effort ≠ [] then [(sd "reasoning_effort", .jstr effort)] else []) ++
      (if summary ≠ [] && summary ≠ sd "none" then
        [(sd "reasoning", .jobj [(sd "summary", .jstr summary)])] else [])
    else []

/-- The variant-1 `text.verbosity` field (lines 860-868). -/
def textF1 (model verbosity : Str) : List (Str × JVal) :=
  if startsW model (sd "gpt-5") && verbosity ≠ [] then
    [(sd "text", .jobj [(sd "verbosity", .jstr verbosity)])]
  else []

/-- Embedding of the variant-1 request-body assembly (lines 631-868);
`uploaded` carries the segments produced by the external upload loop. -/
def buildRequest1 (operation prompt fileId : Str) (o : Opts1)
    (uploaded : List JVal) : JVal :=
  let model := resolveModel o.model
  let addSegs := addFileSegs o.additionalFiles ++
    (bulkTokens o).filterMap bulkSeg ++ uploaded
  .jobj ([(sd "model", .jstr model),
          (sd "input", inputField1 operation prompt fileId addSegs)] ++
    maxTokF o.maxTokens ++
    tempF1 model o.temperature ++
    reasonF1 model o.reasoningEffort o.reasoningSummary ++
    textF1 model o.verbosity)

/-! ### Response extractor
Embedding of the response-shape normalization of the variant-2 `execute`
(`OpenAiGpt5.node.ts` lines 1577-1650). -/

/-- The extractor's mutable locals: main text, web-search side channel,
citation records and sources. -/
structure ExtractSt where
  text : JVal
  webSearchResults : Option JVal
  citations : List JVal
  sources : List JVal

/-- The initial extractor state (`'' / null / [] / []`). -/
def st0 : ExtractSt := ⟨.jstr [], none, [], []⟩

/-- Property access with `undefined` modelled as `null` (used where the
source copies possibly-missing properties into fresh objects). -/
def getPropD (v : JVal) (k : Str) : JVal := (getProp v k).getD .jnull

/-- The web-search side-channel record (lines 1592-1598); `x || null` and
`x || []` defaults as in the source. -/
def mkWebResult (output : JVal) : JVal :=
  let act := getPropD output (sd "action")
  .jobj [(sd "id", getPropD output (sd "id")),
         (sd "status", getPropD output (sd "status")),
         (sd "query", if truthyProp act (sd "query") then getPropD act (sd "query") else .jnull),
         (sd "domains", if truthyProp act (sd "domains") then getPropD act (sd "domains") else .jarr []),
         (sd "sources", if truthyProp act (sd "sources") then getPropD act (sd "sources") else .jarr [])]

/-- Strict string equality test `v.type === tag` on a modelled value. -/
def typeIs (v : JVal) (tag : Str) : Bool :=
  match getProp v (sd "type") with
  | some (.jstr s) => s = tag
  | _ => false

/-- First content entry whose type is `output_text` with truthy text
(the inner scan of lines 1606-1619 and 1624-1629). -/
def findOutText (cs : List JVal) : Option JVal :=
  cs.find? (fun c => typeIs c (sd "output_text") && truthyProp c (sd "text"))

/-- Citation records mapped from a content entry's annotation list
(lines 1610-1617). -/
def mkCitations (annots : List JVal) : List JVal :=
  (annots.filter (fun a => typeIs a (sd "url_citation"))).map
    fun c => .jobj [(sd "url", getPropD c (sd "url")),
                    (sd "title", getPropD c (sd "title")),
                    (sd "startIndex", getPropD c (sd "start_index")),
                    (sd "endIndex", getPropD c (sd "end_index"))]

/-- One iteration of the output-list scan (lines 1589-1631): web-search
entries update the side channel, message entries (and entries with a plain
content list) may overwrite the text. -/
def exStep (st : ExtractSt) (output : JVal) : ExtractSt :=
  if typeIs output (sd "web_search_call") then
    let st := { st with webSearchResults := some (mkWebResult output) }
    match getProp output (sd "action") with
    | some act =>
      (match getProp act (sd "sources") with
       | some (.jarr ss) => { st with sources := ss }
       | _ => st)
    | none => st
  else if typeIs output (sd "message") then
    match getProp output (sd "content") with
    | some (.jarr cs) =>
      (match findOutText cs with
       | some c =>
         { st with
           text := getPropD c (sd "text"),
           citations :=
             match getProp c (sd "annotations") with
             | some (.jarr annots) => mkCitations annots
             | _ => st.citations }
       | none => st)
    | _ => st
  else
    match getProp output (sd "content") with
    | some (.jarr cs) =>
      (match findOutText cs with
       | some c => { st with text := getPropD c (sd "text") }
       | none => st)
    | _ => st

/-- The legacy chat-completions text
(`response.choices?.[0]?.message?.content`, line 1634), when truthy. -/
def choicesContent (resp : JVal) : Option JVal :=
  match getProp resp (sd "choices") with
  | some (.jarr (c0 :: _)) =>
    (match getProp c0 (sd "message") with
     | some m =>
       (match getProp m (sd "content") with
        | some v => if truthy v then some v else none
        | none => none)
     | none => none)
  | _ => none

/-- Embedding of the text/citation/source extraction (lines 1577-1636):
flattened `output_text` first, else a scan of the `output` list, else the
legacy single-choice shape, else the empty string. -/
def extractResp (resp : JVal) : ExtractSt :=
  if truthyProp resp (sd "output_text") then
    { st0 with text := getPropD resp (sd "output_text") }
  else
    match getProp resp (sd "output") with
    | some (.jarr outs) => outs.foldl exStep st0
    | _ =>
      match choicesContent resp with
      | some v => { st0 with text := v }
      | none => st0

/-- Embedding of the reasoning-summary extraction (lines 1639-1650):
prefer `reasoning.summary`, else the first `summary_text` entry of a
top-level `summary` list; `none` models the `null` default. -/
def extractSummary (resp : JVal) : Option JVal :=
  match getProp resp (sd "reasoning") with
  | some r =>
    if truthyProp r (sd "summary") then some (getPropD r (sd "summary"))
    else fallbackSummary resp
  | none => fallbackSummary resp
where
  /-- The `summary` list scan (lines 1643-1650). -/
  fallbackSummary (resp : JVal) : Option JVal :=
    match getProp resp (sd "summary") with
    | some (.jarr ss) =>
      (match ss.find? (fun s =>
          typeIs s (sd "summary_text") && truthyProp s (sd "text")) with
       | some s => some (getPropD s (sd "text"))
       | none => none)
    | _ => none

/-! ### Helper lemmas and accessors for the claims -/

/-- Field access on a built request / response object, by literal name. -/
def getField (r : JVal) (k : String) : Option JVal := getProp r k.data

/-- The single web-search tool of a built request, when present. -/
def firstTool (r : JVal) : Option JVal :=
  match getField r "tools" with
  | some (.jarr (t :: _)) => some t
  | _ => none

/-- The `search_context_size` of the built web-search tool. -/
def toolContext (r : JVal) : Option JVal :=
  (firstTool r).bind fun t => getProp t (sd "search_context_size")

/-- The `filters.allowed_domains` list of the built web-search tool. -/
def toolDomains (r : JVal) : Option JVal :=
  ((firstTool r).bind fun t => getProp t (sd "filters")).bind
    fun f => getProp f (sd "allowed_domains")

/-- The `reasoning.effort` of a built request. -/
def reasoningEffortOf (r : JVal) : Option JVal :=
  (getField r "reasoning").bind fun x => getProp x (sd "effort")


theorem lookup_append_none : ∀ (l1 l2 : List (Str × JVal)) (k : Str),
    l1.lookup k = none → (l1 ++ l2).lookup k = l2.lookup k
  | [], _, _, _ => rfl
  | (k1, _) :: t, l2, k, h => by
    simp only [List.lookup, List.cons_append] at *
    cases hkk : (k == k1) with
    | true => rw [hkk] at h; exact absurd h (by simp)
    | false => rw [hkk] at h; exact lookup_append_none t l2 k h

theorem lookup_append_some : ∀ (l1 l2 : List (Str × JVal)) (k : Str) (v : JVal),
    l1.lookup k = some v → (l1 ++ l2).lookup k = some v
  | [], _, _, _, h => by simp [List.lookup] at h
  | (k1, _) :: t, l2, k, v, h => by
    simp only [List.lookup, List.cons_append] at *
    cases hkk : (k == k1) with
    | true => rw [hkk] at h; exact h
    | false => rw [hkk] at h; exact lookup_append_some t l2 k v h

theorem maxTokF_no_temp (mt : Option Int) :
    (maxTokF mt).lookup (sd "temperature") = none := by
  unfold maxTokF
  repeat' split
  all_goals rfl

theorem reasonF1_no_temp (m e s : Str) :
    (reasonF1 m e s).lookup (sd "temperature") = none := by
  unfold reasonF1
  repeat' split
  all_goals rfl

theorem textF1_no_temp (m v : Str) :
    (textF1 m v).lookup (sd "temperature") = none := by
  unfold textF1
  repeat' split
  all_goals rfl

theorem reasonF2_no_temp (m e s : Str) :
    (reasonF2 m e s).lookup (sd "temperature") = none := by
  unfold reasonF2
  repeat' split
  all_goals rfl

theorem toolsF_no_temp (w : WebSearchCfg) (scs : Str) :
    (toolsF w scs).lookup (sd "temperature") = none := by
  unfold toolsF
  repeat' split
  all_goals rfl

theorem tempF1_of_gpt5 (m : Str) (t : Option Rat)
    (h : startsW m (sd "gpt-5") = true) : tempF1 m t = [] := by
  cases t with
  | none => rfl
  | some q => simp [tempF1, h]

theorem tempF1_of_other (m : Str) (q : Rat)
    (h : startsW m (sd "gpt-5") = false) :
    tempF1 m (some q) = [(sd "temperature", .jnum q)] := by
  simp [tempF1, h]

/-- Unfolding of a variant-1 request field lookup into its chunk list. -/
theorem getField_req1 (op prompt fid : Str) (o : Opts1) (up : List JVal) (k : String) :
    getField (buildRequest1 op prompt fid o up) k =
      List.lookup (sd k)
        ([(sd "model", JVal.jstr (resolveModel o.model)),
          (sd "input", inputField1 op prompt fid
            (addFileSegs o.additionalFiles ++
              List.filterMap bulkSeg (bulkTokens o) ++ up))] ++
         (maxTokF o.maxTokens ++
          (tempF1 (resolveModel o.model) o.temperature ++
           (reasonF1 (resolveModel o.model) o.reasoningEffort o.reasoningSummary ++
            textF1 (resolveModel o.model) o.verbosity)))) := by
  show List.lookup _ _ = _
  simp only [List.append_assoc, sd]

/-- The variant-2 builder locals, after the quick-mode overrides. -/
def model2 (inp : Req2Input) : Str :=
  if inp.options.quickMode then quickSub (resolveModel inp.options.model)
  else resolveModel inp.options.model

/-- The variant-2 effort local, after the quick-mode override. -/
def effort2 (inp : Req2Input) : Str :=
  if inp.options.quickMode then sd "low" else inp.options.reasoningEffort

/-- The variant-2 search-context local, after the quick-mode override. -/
def scs2 (inp : Req2Input) : Str :=
  if inp.options.quickMode then sd "medium" else inp.webSearch.searchContextSize

/-- Unfolding of a variant-2 request field lookup into its chunk list. -/
theorem getField_req2 (inp : Req2Input) (k : String) :
    getField (buildRequest2 inp) k =
      List.lookup (sd k)
        ([(sd "model", JVal.jstr (model2 inp)),
          (sd "input", inputField2 inp.prompt (parseFileInput inp.pdfFiles)
            (parseFileInput inp.imageFiles))] ++
         (maxTokF inp.options.maxTokens ++
          (tempF2 inp.options.temperature ++
           (reasonF2 (model2 inp) (effort2 inp) inp.options.reasoningSummary ++
            toolsF inp.webSearch (scs2 inp))))) := by
  show List.lookup _ _ = _
  simp only [List.append_assoc, model2, effort2, scs2, sd]

/-- **C1** (corrected).  The claim states that the built request never
carries a `temperature` field for reasoning-family models.  On the code it
fails: the variant-1 builder (lines 823-827) with model `o3` and a supplied
temperature produces a request whose `temperature` field is present, and
the variant-2 builder (lines 1485-1487) includes a supplied temperature
even for model `gpt-5`. -/
theorem c1_counterexample :
    getField (buildRequest1 (sd "processFileId") (sd "hi") (sd "file_1")
      ⟨sd "o3", none, some 1, [], [], [], [], [], none, []⟩ []) "temperature"
      = some (.jnum 1) ∧
    getField (buildRequest2 ⟨sd "hi", .jnull, .jnull,
      ⟨sd "gpt-5", false, [], [], none, some 1⟩,
      ⟨false, [], none, false, none⟩⟩) "temperature" = some (.jnum 1) :=
  ⟨rfl, rfl⟩

/-- **C1** (amended).  The variant-1 builder omits `temperature` exactly
when the resolved model starts with `gpt-5`; for every other model
(including o3, o3-mini, o3-pro, o4-mini) a supplied temperature is copied
into the request; the variant-2 builder always copies a supplied
temperature, whatever the model. -/
theorem c1_amended (op prompt fid : Str) (o : Opts1) (up : List JVal)
    (inp : Req2Input) (q : Rat) :
    (startsW (resolveModel o.model) (sd "gpt-5") = true →
      getField (buildRequest1 op prompt fid o up) "temperature" = none) ∧
    (startsW (resolveModel o.model) (sd "gpt-5") = false → o.temperature = some q →
      getField (buildRequest1 op prompt fid o up) "temperature" = some (.jnum q)) ∧
    (inp.options.temperature = some q →
      getField (buildRequest2 inp) "temperature" = some (.jnum q)) := by
  refine ⟨fun h => ?_, fun h ht => ?_, fun ht => ?_⟩
  · rw [getField_req1,
        lookup_append_none _ _ _ (by rfl),
        lookup_append_none _ _ _ (maxTokF_no_temp o.maxTokens),
        lookup_append_none _ _ _ (by rw [tempF1_of_gpt5 _ _ h]; rfl),
        lookup_append_none _ _ _ (reasonF1_no_temp _ _ _)]
    exact textF1_no_temp _ _
  · rw [getField_req1,
        lookup_append_none _ _ _ (by rfl),
        lookup_append_none _ _ _ (maxTokF_no_temp o.maxTokens)]
    exact lookup_append_some _ _ _ _ (by rw [ht, tempF1_of_other _ _ h]; rfl)
  · rw [getField_req2,
        lookup_append_none _ _ _ (by rfl),
        lookup_append_none _ _ _ (maxTokF_no_temp inp.options.maxTokens)]
    exact lookup_append_some _ _ _ _ (by rw [ht]; rfl)

/-- Witness for `c1_amended` at concrete inputs: a gpt-5 variant-1 request
drops the supplied temperature, an o3-mini variant-1 request and a
variant-2 request keep it. -/
theorem c1_amended_witness :
    getField (buildRequest1 (sd "processFileId") (sd "hi") (sd "file_1")
      ⟨sd "gpt-5", none, some 1, [], [], [], [], [], none, []⟩ []) "temperature" = none ∧
    getField (buildRequest1 (sd "processFileId") (sd "hi") (sd "file_1")
      ⟨sd "o3-mini", none, some 1, [], [], [], [], [], none, []⟩ []) "temperature"
      = some (.jnum 1) ∧
    getField (buildRequest2 ⟨sd "hi", .jnull, .jnull,
      ⟨sd "gpt-5-nano", false, [], [], none, some 1⟩,
      ⟨false, [], none, false, none⟩⟩) "temperature" = some (.jnum 1) :=
  ⟨(c1_amended (sd "processFileId") (sd "hi") (sd "file_1")
      ⟨sd "gpt-5", none, some 1, [], [], [], [], [], none, []⟩ []
      ⟨sd "hi", .jnull, .jnull, ⟨[], false, [], [], none, none⟩,
        ⟨false, [], none, false, none⟩⟩ 1).1 rfl,
   (c1_amended (sd "processFileId") (sd "hi") (sd "file_1")
      ⟨sd "o3-mini", none, some 1, [], [], [], [], [], none, []⟩ []
      ⟨sd "hi", .jnull, .jnull, ⟨[], false, [], [], none, none⟩,
        ⟨false, [], none, false, none⟩⟩ 1).2.1 rfl rfl,
   (c1_amended (sd "x") (sd "x") (sd "x")
      ⟨sd "o3-mini", none, none, [], [], [], [], [], none, []⟩ []
      ⟨sd "hi", .jnull, .jnull, ⟨sd "gpt-5-nano", false, [], [], none, some 1⟩,
        ⟨false, [], none, false, none⟩⟩ 1).2.2 rfl⟩

theorem quickSub_ne_nil (m : Str) (h : m ≠ []) : quickSub m ≠ [] := by
  unfold quickSub
  split
  · decide
  · split
    · decide
    · split
      · decide
      · exact h

theorem resolveModel_ne_nil (m : Str) : resolveModel m ≠ [] := by
  unfold resolveModel
  split
  · decide
  · assumption

theorem resolveModel_of_ne_nil (m : Str) (h : m ≠ []) : resolveModel m = m := by
  simp [resolveModel, h]

theorem resolve_quickSub (m : Str) :
    resolveModel (quickSub (resolveModel m)) = quickSub (resolveModel m) :=
  resolveModel_of_ne_nil _ (quickSub_ne_nil _ (resolveModel_ne_nil m))

/-- The config surrogate of quick mode: quick mode off, the model already
substituted, effort `low`, search context `medium`. -/
def quickCfg (inp : Req2Input) : Req2Input :=
  { inp with
    options := { inp.options with
      model := quickSub (resolveModel inp.options.model),
      quickMode := false,
      reasoningEffort := sd "low" },
    webSearch := { inp.webSearch with searchContextSize := sd "medium" } }

theorem maxTokF_no_tools (mt : Option Int) :
    (maxTokF mt).lookup (sd "tools") = none := by
  unfold maxTokF
  repeat' split
  all_goals rfl

theorem tempF2_no_tools (t : Option Rat) :
    (tempF2 t).lookup (sd "tools") = none := by
  unfold tempF2
  repeat' split
  all_goals rfl

theorem reasonF2_no_tools (m e s : Str) :
    (reasonF2 m e s).lookup (sd "tools") = none := by
  unfold reasonF2
  repeat' split
  all_goals rfl

theorem maxTokF_no_reason (mt : Option Int) :
    (maxTokF mt).lookup (sd "reasoning") = none := by
  unfold maxTokF
  repeat' split
  all_goals rfl

theorem tempF2_no_reason (t : Option Rat) :
    (tempF2 t).lookup (sd "reasoning") = none := by
  unfold tempF2
  repeat' split
  all_goals rfl

theorem toolsF_scs_override (w : WebSearchCfg) (s : Str) (hs : s ≠ []) :
    toolsF w s = toolsF { w with searchContextSize := s } s := by
  simp [toolsF, webTool, hs]

/-- **C5** (amended).  Quick mode is equivalent to pre-transforming the
configuration (model substituted by the fixed mapping, effort forced to
`low`, search context forced to `medium`) before all other
request-building rules, so every later model-family check sees the
substituted identifier; the `medium` search context reaches the built
web-search tool whenever web search is enabled, and the `low` effort
reaches the built request only when the substituted model is in the
gpt-5 / gpt-4.1 families — an o3 quick-mode request carries no reasoning
field at all. -/
theorem c5_amended (inp : Req2Input) (hq : inp.options.quickMode = true) :
    buildRequest2 inp = buildRequest2 (quickCfg inp) ∧
    (inp.webSearch.enabled = true →
      toolContext (buildRequest2 inp) = some (js "medium")) ∧
    ((startsW (model2 inp) (sd "gpt-5") = true ∨
      startsW (model2 inp) (sd "gpt-4.1") = true) →
      reasoningEffortOf (buildRequest2 inp) = some (js "low")) ∧
    getField (buildRequest2 inp) "model"
      = some (.jstr (quickSub (resolveModel inp.options.model))) := by
  refine ⟨?_, fun he => ?_, fun hf => ?_, ?_⟩
  · simp [buildRequest2, quickCfg, hq, resolve_quickSub]
    exact toolsF_scs_override inp.webSearch (sd "medium") (by decide)
  · unfold toolContext firstTool
    rw [getField_req2,
        lookup_append_none _ _ _ (by rfl),
        lookup_append_none _ _ _ (maxTokF_no_tools inp.options.maxTokens),
        lookup_append_none _ _ _ (tempF2_no_tools inp.options.temperature),
        lookup_append_none _ _ _ (reasonF2_no_tools _ _ _),
        show scs2 inp = sd "medium" from by simp [scs2, hq]]
    unfold toolsF
    rw [if_pos he]
    rfl
  · unfold reasoningEffortOf
    rw [getField_req2,
        lookup_append_none _ _ _ (by rfl),
        lookup_append_none _ _ _ (maxTokF_no_reason inp.options.maxTokens),
        lookup_append_none _ _ _ (tempF2_no_reason inp.options.temperature)]
    have he : effort2 inp = sd "low" := by simp [effort2, hq]
    rw [lookup_append_some _ _ _ _ (by
      unfold reasonF2
      rw [he]
      rw [if_pos (by
        rcases hf with h | h <;> simp only [sd] at h ⊢ <;> simp [h])]
      rfl)]
    rw [if_pos (by decide : (sd "low" : Str) ≠ [])]
    rfl
  · rw [getField_req2,
        show model2 inp = quickSub (resolveModel inp.options.model) from by
          simp [model2, hq]]
    rfl

/-- **C5** (counterexample).  A quick-mode configuration with model `o3`
is substituted to `o3-mini`, yet the built request carries no `reasoning`
field at all — in particular no reasoning effort `low`, contrary to the
claim. -/
theorem c5_counterexample :
    getField (buildRequest2 ⟨sd "hello", .jnull, .jnull,
      ⟨sd "o3", true, [], [], none, none⟩,
      ⟨false, [], none, false, none⟩⟩) "model" = some (js "o3-mini") ∧
    getField (buildRequest2 ⟨sd "hello", .jnull, .jnull,
      ⟨sd "o3", true, [], [], none, none⟩,
      ⟨false, [], none, false, none⟩⟩) "reasoning" = none :=
  ⟨rfl, rfl⟩

/-- Witness for `c5_amended` at a concrete quick-mode gpt-5 configuration
with web search enabled. -/
theorem c5_amended_witness :
    buildRequest2 ⟨sd "hello", .jnull, .jnull,
        ⟨sd "gpt-5", true, [], [], none, none⟩,
        ⟨true, [], none, false, none⟩⟩
      = buildRequest2 (quickCfg ⟨sd "hello", .jnull, .jnull,
        ⟨sd "gpt-5", true, [], [], none, none⟩,
        ⟨true, [], none, false, none⟩⟩) ∧
    toolContext (buildRequest2 ⟨sd "hello", .jnull, .jnull,
        ⟨sd "gpt-5", true, [], [], none, none⟩,
        ⟨true, [], none, false, none⟩⟩) = some (js "medium") ∧
    reasoningEffortOf (buildRequest2 ⟨sd "hello", .jnull, .jnull,
        ⟨sd "gpt-5", true, [], [], none, none⟩,
        ⟨true, [], none, false, none⟩⟩) = some (js "low") ∧
    getField (buildRequest2 ⟨sd "hello", .jnull, .jnull,
        ⟨sd "gpt-5", true, [], [], none, none⟩,
        ⟨true, [], none, false, none⟩⟩) "model" = some (js "gpt-5-mini") :=
  ⟨(c5_amended _ rfl).1, (c5_amended _ rfl).2.1 rfl,
   (c5_amended _ rfl).2.2.1 (Or.inl rfl), (c5_amended _ rfl).2.2.2⟩

/-- The trimmed non-empty comma-separated entries of an allow-list string
(lines 1521-1524). -/
def domainList (s : Str) : List Str :=
  ((splitChar ',' s).map trim).filter (· ≠ [])

theorem lookup_cons_ne {k k1 : Str} {v : JVal} {t : List (Str × JVal)}
    (h : (k == k1) = false) :
    List.lookup k ((k1, v) :: t) = List.lookup k t := by
  simp [List.lookup, h]

/-- **C6** (confirmed).  With web search enabled and a supplied allow-list
string with at least one non-empty entry, the built tool's
`allowed_domains` is exactly the first 20 trimmed non-empty entries in
original order: the `take 20` of the entry list, whose length is 20 when
more than 20 entries were supplied and which is the whole entry list when
at most 20 were. -/
theorem c6_allowed_domains (inp : Req2Input) (s : Str)
    (he : inp.webSearch.enabled = true)
    (ha : inp.webSearch.allowedDomains = some s)
    (hs : domainList s ≠ []) :
    toolDomains (buildRequest2 inp)
      = some (.jarr (((domainList s).take 20).map .jstr)) ∧
    ((domainList s).take 20).length = min 20 (domainList s).length ∧
    ((domainList s).length ≤ 20 → (domainList s).take 20 = domainList s) := by
  have hsne : s ≠ [] := by
    intro e
    exact hs (by rw [e]; rfl)
  refine ⟨?_, List.length_take _ _, fun hle => List.take_of_length_le hle⟩
  unfold toolDomains firstTool
  rw [getField_req2,
      lookup_append_none _ _ _ (by rfl),
      lookup_append_none _ _ _ (maxTokF_no_tools inp.options.maxTokens),
      lookup_append_none _ _ _ (tempF2_no_tools inp.options.temperature),
      lookup_append_none _ _ _ (reasonF2_no_tools _ _ _)]
  unfold toolsF
  rw [if_pos he]
  show Option.bind (List.lookup (sd "filters") _) _ = _
  rw [lookup_cons_ne (by decide), List.append_assoc,
      lookup_append_none _ _ _ (by repeat' split
                                   all_goals rfl)]
  rw [lookup_append_some _ _ _ _ (by
    unfold domainsF
    rw [ha]
    show List.lookup _ (if s ≠ [] then _ else []) = _
    rw [if_pos hsne]
    show List.lookup _ (if domainList s ≠ [] then _ else []) = _
    rw [if_pos hs]
    rfl)]
  rfl

/-- Witness for `c6_allowed_domains` at a concrete enabled web search with
allow-list `"a,b,c"`. -/
theorem c6_allowed_domains_witness :
    toolDomains (buildRequest2 ⟨sd "p", .jnull, .jnull,
        ⟨[], false, [], [], none, none⟩,
        ⟨true, [], some (sd "a,b,c"), false, none⟩⟩)
      = some (.jarr (((domainList (sd "a,b,c")).take 20).map .jstr)) ∧
    ((domainList (sd "a,b,c")).take 20).length
      = min 20 (domainList (sd "a,b,c")).length ∧
    (domainList (sd "a,b,c")).take 20 = domainList (sd "a,b,c") :=
  ⟨(c6_allowed_domains ⟨sd "p", .jnull, .jnull,
        ⟨[], false, [], [], none, none⟩,
        ⟨true, [], some (sd "a,b,c"), false, none⟩⟩ (sd "a,b,c")
        rfl rfl (by decide)).1,
   (c6_allowed_domains ⟨sd "p", .jnull, .jnull,
        ⟨[], false, [], [], none, none⟩,
        ⟨true, [], some (sd "a,b,c"), false, none⟩⟩ (sd "a,b,c")
        rfl rfl (by decide)).2.1,
   (c6_allowed_domains ⟨sd "p", .jnull, .jnull,
        ⟨[], false, [], [], none, none⟩,
        ⟨true, [], some (sd "a,b,c"), false, none⟩⟩ (sd "a,b,c")
        rfl rfl (by decide)).2.2 (by decide)⟩

theorem pdfSeg_none (t : Str) (h1 : startsW t (sd "file_") = false)
    (h2 : containsSub t (sd "http://") = false)
    (h3 : containsSub t (sd "https://") = false) : pdfSeg t = none := by
  simp [pdfSeg, h1, h2, h3]

theorem imgSeg_none (t : Str) (h1 : startsW t (sd "file_") = false)
    (h2 : containsSub t (sd "http://") = false)
    (h3 : containsSub t (sd "https://") = false) : imgSeg t = none := by
  simp [imgSeg, h1, h2, h3]

/-- **C10** (confirmed).  When the parsed PDF/image token lists are
together non-empty but every token is dropped by classification (no
`file_` prefix, no `http://`/`https://` substring), the built `input` is
still the one-element list form whose single content segment is the text
prompt — not the scalar prompt string of the zero-files case. -/
theorem c10_input_list_form (inp : Req2Input)
    (hne : parseFileInput inp.pdfFiles ≠ [] ∨ parseFileInput inp.imageFiles ≠ [])
    (hp : ∀ t ∈ parseFileInput inp.pdfFiles,
      startsW t (sd "file_") = false ∧ containsSub t (sd "http://") = false ∧
        containsSub t (sd "https://") = false)
    (hi : ∀ t ∈ parseFileInput inp.imageFiles,
      startsW t (sd "file_") = false ∧ containsSub t (sd "http://") = false ∧
        containsSub t (sd "https://") = false) :
    getField (buildRequest2 inp) "input"
      = some (.jarr [.jobj [(sd "role", js "user"),
          (sd "content", .jarr [.jobj [(sd "type", js "input_text"),
            (sd "text", .jstr inp.prompt)]])]]) := by
  rw [getField_req2, lookup_append_some _ _ _ _ (by rfl)]
  unfold inputField2
  rw [if_pos (by rcases hne with h | h <;> simp [h])]
  have hpn : (parseFileInput inp.pdfFiles).filterMap pdfSeg = [] := by
    rw [List.filterMap_eq_nil_iff]
    intro t ht
    exact pdfSeg_none t (hp t ht).1 (hp t ht).2.1 (hp t ht).2.2
  have hin : (parseFileInput inp.imageFiles).filterMap imgSeg = [] := by
    rw [List.filterMap_eq_nil_iff]
    intro t ht
    exact imgSeg_none t (hi t ht).1 (hi t ht).2.1 (hi t ht).2.2
  rw [hpn, hin]
  rfl

/-- Witness for `c10_input_list_form`: a single dropped token `zzz`. -/
theorem c10_input_list_form_witness :
    getField (buildRequest2 ⟨sd "hi", js "zzz", .jnull,
        ⟨[], false, [], [], none, none⟩,
        ⟨false, [], none, false, none⟩⟩) "input"
      = some (.jarr [.jobj [(sd "role", js "user"),
          (sd "content", .jarr [.jobj [(sd "type", js "input_text"),
            (sd "text", .jstr (sd "hi"))]])]]) :=
  c10_input_list_form ⟨sd "hi", js "zzz", .jnull,
      ⟨[], false, [], [], none, none⟩,
      ⟨false, [], none, false, none⟩⟩
    (Or.inl (by decide)) (by decide) (by decide)

theorem typeIs_ne (v : JVal) (a b : Str) (h : typeIs v a = true) (hab : a ≠ b) :
    typeIs v b = false := by
  unfold typeIs at h ⊢
  cases hm : getProp v (sd "type") with
  | none => simp_all
  | some w => cases w <;> simp_all

/-- **C2** (amended).  The extractor does not stop at the first text-bearing
message: it scans the whole `output` list, each text-bearing message entry
overwrites the text (so the last one wins), and web-search side-channel
sources are taken from every web-search entry, including entries after a
text-bearing message (the last one wins). -/
theorem c2_amended (outs outs2 : List JVal) (e : JVal) (cs : List JVal)
    (c t e2 act : JVal) (ss : List JVal)
    (he : typeIs e (sd "message") = true)
    (hc : getProp e (sd "content") = some (.jarr cs))
    (hf : findOutText cs = some c)
    (ht : getProp c (sd "text") = some t)
    (hw : typeIs e2 (sd "web_search_call") = true)
    (ha : getProp e2 (sd "action") = some act)
    (hss : getProp act (sd "sources") = some (.jarr ss)) :
    ((outs ++ [e]).foldl exStep st0).text = t ∧
    ((outs2 ++ [e2]).foldl exStep st0).sources = ss := by
  constructor
  · rw [List.foldl_append]
    show (exStep _ e).text = t
    have h1 : typeIs e (sd "web_search_call") = false :=
      typeIs_ne e _ _ he (by decide)
    simp [exStep, h1, he, hc, hf, ht, getPropD]
  · rw [List.foldl_append]
    show (exStep _ e2).sources = ss
    simp [exStep, hw, ha, hss]

/-- **C2** (counterexample).  On an output list
`[message "A", web-search(sources=["u"]), message "B"]` the extracted text
is `"B"`, not the first message's `"A"`, and the sources of the web-search
entry that sits *after* the first text-bearing message are captured —
contradicting both parts of the claim. -/
theorem c2_counterexample :
    (extractResp (.jobj [(sd "output", .jarr
      [.jobj [(sd "type", js "message"), (sd "content", .jarr
        [.jobj [(sd "type", js "output_text"), (sd "text", js "A")]])],
       .jobj [(sd "type", js "web_search_call"),
         (sd "action", .jobj [(sd "sources", .jarr [js "u"])])],
       .jobj [(sd "type", js "message"), (sd "content", .jarr
        [.jobj [(sd "type", js "output_text"), (sd "text", js "B")]])]])])).text
      = js "B" ∧
    (extractResp (.jobj [(sd "output", .jarr
      [.jobj [(sd "type", js "message"), (sd "content", .jarr
        [.jobj [(sd "type", js "output_text"), (sd "text", js "A")]])],
       .jobj [(sd "type", js "web_search_call"),
         (sd "action", .jobj [(sd "sources", .jarr [js "u"])])],
       .jobj [(sd "type", js "message"), (sd "content", .jarr
        [.jobj [(sd "type", js "output_text"), (sd "text", js "B")]])]])])).sources
      = [js "u"] :=
  ⟨rfl, rfl⟩

/-- Witness for `c2_amended`: one text-bearing message appended after an
earlier message, one web-search entry appended after a message. -/
theorem c2_amended_witness :
    ((([JVal.jobj [(sd "type", js "message"), (sd "content", JVal.jarr
        [JVal.jobj [(sd "type", js "output_text"), (sd "text", js "A")]])]] ++
      [JVal.jobj [(sd "type", js "message"), (sd "content", JVal.jarr
        [JVal.jobj [(sd "type", js "output_text"), (sd "text", js "B")]])]]).foldl
        exStep st0).text = js "B") ∧
    ((([JVal.jobj [(sd "type", js "message"), (sd "content", JVal.jarr
        [JVal.jobj [(sd "type", js "output_text"), (sd "text", js "A")]])]] ++
      [JVal.jobj [(sd "type", js "web_search_call"),
        (sd "action", JVal.jobj [(sd "sources", JVal.jarr [js "u"])])]]).foldl
        exStep st0).sources = [js "u"]) :=
  c2_amended
    [JVal.jobj [(sd "type", js "message"), (sd "content", JVal.jarr
      [JVal.jobj [(sd "type", js "output_text"), (sd "text", js "A")]])]]
    [JVal.jobj [(sd "type", js "message"), (sd "content", JVal.jarr
      [JVal.jobj [(sd "type", js "output_text"), (sd "text", js "A")]])]]
    (JVal.jobj [(sd "type", js "message"), (sd "content", JVal.jarr
      [JVal.jobj [(sd "type", js "output_text"), (sd "text", js "B")]])])
    [JVal.jobj [(sd "type", js "output_text"), (sd "text", js "B")]]
    (JVal.jobj [(sd "type", js "output_text"), (sd "text", js "B")])
    (js "B")
    (JVal.jobj [(sd "type", js "web_search_call"),
      (sd "action", JVal.jobj [(sd "sources", JVal.jarr [js "u"])])])
    (JVal.jobj [(sd "sources", JVal.jarr [js "u"])])
    [js "u"]
    rfl rfl rfl rfl rfl rfl rfl

/-- An output entry is text-bearing when its `content` list holds an
`output_text` segment with truthy text; `noTextEntry` holds otherwise. -/
def noTextEntry (e : JVal) : Bool :=
  match getProp e (sd "content") with
  | some (.jarr cs) => (findOutText cs).isNone
  | _ => true

/-- Every entry of the response's `output` list (when it is a list) is
free of text-bearing segments. -/
def outsOk (resp : JVal) : Bool :=
  match getProp resp (sd "output") with
  | some (.jarr outs) => outs.all noTextEntry
  | _ => true

theorem exStep_text (st : ExtractSt) (e : JVal) (h : noTextEntry e = true) :
    (exStep st e).text = st.text := by
  unfold noTextEntry at h
  by_cases h1 : typeIs e (sd "web_search_call") = true
  · cases ha : getProp e (sd "action") with
    | none => simp [exStep, h1, ha]
    | some act =>
      cases hs : getProp act (sd "sources") with
      | none => simp [exStep, h1, ha, hs]
      | some w => cases w <;> simp [exStep, h1, ha, hs]
  · by_cases h2 : typeIs e (sd "message") = true
    · cases hc : getProp e (sd "content") with
      | none => simp [exStep, h1, h2, hc]
      | some w =>
        cases w with
        | jarr cs =>
          rw [hc] at h
          simp only [Option.isNone_iff_eq_none] at h
          simp [exStep, h1, h2, hc, h]
        | jnull => simp [exStep, h1, h2, hc]
        | jbool b => simp [exStep, h1, h2, hc]
        | jnum q => simp [exStep, h1, h2, hc]
        | jstr s => simp [exStep, h1, h2, hc]
        | jobj fs => simp [exStep, h1, h2, hc]
    · cases hc : getProp e (sd "content") with
      | none => simp [exStep, h1, h2, hc]
      | some w =>
        cases w with
        | jarr cs =>
          rw [hc] at h
          simp only [Option.isNone_iff_eq_none] at h
          simp [exStep, h1, h2, hc, h]
        | jnull => simp [exStep, h1, h2, hc]
        | jbool b => simp [exStep, h1, h2, hc]
        | jnum q => simp [exStep, h1, h2, hc]
        | jstr s => simp [exStep, h1, h2, hc]
        | jobj fs => simp [exStep, h1, h2, hc]

theorem foldl_text_const : ∀ (outs : List JVal) (st : ExtractSt),
    outs.all noTextEntry = true → (outs.foldl exStep st).text = st.text
  | [], _, _ => rfl
  | e :: t, st, h => by
    simp only [List.all_cons, Bool.and_eq_true] at h
    show (t.foldl exStep (exStep st e)).text = st.text
    rw [foldl_text_const t (exStep st e) h.2, exStep_text st e h.1]

/-- **C9** (confirmed).  A response with no truthy flattened `output_text`,
whose `output` list (if any) has no text-bearing entry, and with no truthy
legacy `choices[0].message.content`, extracts to the empty-string text —
the (total) extractor yields `""` rather than an error. -/
theorem c9_empty_text (resp : JVal)
    (h1 : truthyProp resp (sd "output_text") = false)
    (h2 : outsOk resp = true)
    (h3 : choicesContent resp = none) :
    (extractResp resp).text = .jstr [] := by
  unfold extractResp
  rw [if_neg (by simp [h1])]
  unfold outsOk at h2
  cases ho : getProp resp (sd "output") with
  | none => rw [h3]; rfl
  | some w =>
    cases w with
    | jarr outs =>
      rw [ho] at h2
      exact foldl_text_const outs st0 h2
    | jnull => rw [h3]; rfl
    | jbool b => rw [h3]; rfl
    | jnum q => rw [h3]; rfl
    | jstr s => rw [h3]; rfl
    | jobj fs => rw [h3]; rfl

/-- Witness for `c9_empty_text`: a response whose output list holds only a
web-search call and whose only other fields are unrelated. -/
theorem c9_empty_text_witness :
    (extractResp (JVal.jobj [(sd "model", js "gpt-5"),
      (sd "output", JVal.jarr [JVal.jobj [(sd "type", js "web_search_call"),
        (sd "action", JVal.jobj [(sd "query", js "q")])]])])).text = .jstr [] :=
  c9_empty_text _ rfl rfl rfl

/-! ### Lemmas about trimming and splitting -/

theorem dropWhile_idem (p : Char → Bool) :
    ∀ l : Str, (l.dropWhile p).dropWhile p = l.dropWhile p
  | [] => rfl
  | c :: l => by
    by_cases h : p c
    · rw [List.dropWhile_cons_of_pos h]
      exact dropWhile_idem p l
    · rw [List.dropWhile_cons_of_neg h, List.dropWhile_cons_of_neg h]

theorem trimL_trim (l : Str) : trimL (trim l) = trim l := by
  unfold trim trimL
  exact dropWhile_idem wsChar _

/-- A good token: non-empty and not whitespace-only. -/
def goodTok (t : Str) : Prop := t ≠ [] ∧ trimL t ≠ []

theorem goodTok_of_trim {y : Str} (h : trim y ≠ []) : goodTok (trim y) :=
  ⟨h, by rw [trimL_trim]; exact h⟩

theorem goodTok_cons {c : Str} {a : Char} (h : wsChar a = false) :
    goodTok (a :: c) :=
  ⟨by simp, by unfold trimL; rw [List.dropWhile_cons_of_neg (by simp [h])]; simp⟩

theorem splitChar_ne_nil (sep : Char) : ∀ l : Str, splitChar sep l ≠ []
  | [] => by simp [splitChar]
  | c :: l => by
    unfold splitChar
    by_cases h : c = sep
    · simp [h]
    · rw [if_neg h]
      cases hs : splitChar sep l with
      | nil => simp
      | cons p ps => simp

/-- Append one character to the last chunk. -/
def snocLast (a : Char) : List Str → List Str
  | [] => []
  | [p] => [p ++ [a]]
  | p :: ps => p :: snocLast a ps

theorem splitChar_snoc (sep a : Char) (ha : ¬ a = sep) :
    ∀ l : Str, splitChar sep (l ++ [a]) = snocLast a (splitChar sep l)
  | [] => by simp [splitChar, ha, snocLast]
  | c :: l => by
    show splitChar sep (c :: (l ++ [a])) = _
    unfold splitChar
    by_cases h : c = sep
    · rw [if_pos h, if_pos h, splitChar_snoc sep a ha l]
      cases hs : splitChar sep l with
      | nil => exact absurd hs (splitChar_ne_nil sep l)
      | cons p ps => cases ps <;> rfl
    · rw [if_neg h, if_neg h, splitChar_snoc sep a ha l]
      cases hs : splitChar sep l with
      | nil => exact absurd hs (splitChar_ne_nil sep l)
      | cons p ps =>
        cases ps with
        | nil => rfl
        | cons q qs => rfl

theorem trim_snoc_ws {a : Char} (ha : wsChar a = true) (l : Str) :
    trim (l ++ [a]) = trim l := by
  unfold trim trimR
  rw [List.reverse_append, List.reverse_singleton]
  show trimL ((List.dropWhile wsChar (a :: l.reverse)).reverse) = _
  rw [List.dropWhile_cons_of_pos ha]

theorem mapTrim_snocLast {a : Char} (ha : wsChar a = true) :
    ∀ ps : List Str, (snocLast a ps).map trim = ps.map trim
  | [] => rfl
  | [p] => by simp [snocLast, trim_snoc_ws ha]
  | p :: q :: ps => by
    show trim p :: (snocLast a (q :: ps)).map trim = trim p :: (q :: ps).map trim
    rw [mapTrim_snocLast ha (q :: ps)]

theorem mapTrim_split_snocs (sep : Char) (hsep : wsChar sep = false) :
    ∀ (ts : Str), (∀ a ∈ ts, wsChar a = true) → ∀ x : Str,
      (splitChar sep (x ++ ts)).map trim = (splitChar sep x).map trim
  | [], _, x => by simp
  | t :: ts, h, x => by
    have ht : wsChar t = true := h t (by simp)
    have hts : t ≠ sep := fun e => by rw [e] at ht; rw [ht] at hsep; cases hsep
    calc (splitChar sep (x ++ (t :: ts))).map trim
        = (splitChar sep ((x ++ [t]) ++ ts)).map trim := by
          rw [List.append_assoc]; rfl
      _ = (splitChar sep (x ++ [t])).map trim :=
          mapTrim_split_snocs sep hsep ts (fun a ha => h a (by simp [ha])) (x ++ [t])
      _ = (snocLast t (splitChar sep x)).map trim := by
          rw [splitChar_snoc sep t hts]
      _ = (splitChar sep x).map trim := mapTrim_snocLast ht _

theorem trim_cons_ws {c : Char} (hc : wsChar c = true) (l : Str) :
    trim (c :: l) = trim l := by
  unfold trim trimR
  rw [show (c :: l).reverse = l.reverse ++ [c] by simp]
  rw [List.dropWhile_append]
  by_cases h : (List.dropWhile wsChar l.reverse).isEmpty
  · rw [if_pos h]
    rw [List.isEmpty_iff] at h
    rw [h]
    show trimL (List.dropWhile wsChar [c]).reverse = _
    rw [List.dropWhile_cons_of_pos hc]
    rfl
  · rw [if_neg h]
    rw [List.reverse_append, List.reverse_singleton]
    show trimL (c :: (List.dropWhile wsChar l.reverse).reverse) = _
    unfold trimL
    rw [List.dropWhile_cons_of_pos hc]

theorem splitChar_cons_of_ne (sep c : Char) (h : ¬ c = sep) (l : Str) :
    ∃ q qs, splitChar sep l = q :: qs ∧
      splitChar sep (c :: l) = (c :: q) :: qs := by
  cases hs : splitChar sep l with
  | nil => exact absurd hs (splitChar_ne_nil sep l)
  | cons q qs =>
    refine ⟨q, qs, rfl, ?_⟩
    unfold splitChar
    rw [if_neg h, hs]

theorem mapTrim_split_conss (sep : Char) (hsep : wsChar sep = false) :
    ∀ (ps : Str), (∀ a ∈ ps, wsChar a = true) → ∀ x : Str,
      (splitChar sep (ps ++ x)).map trim = (splitChar sep x).map trim
  | [], _, x => by simp
  | p :: ps, h, x => by
    have hp : wsChar p = true := h p (by simp)
    have hpn : ¬ p = sep := fun e => by rw [e] at hp; rw [hp] at hsep; cases hsep
    obtain ⟨q, qs, hs, hcons⟩ := splitChar_cons_of_ne sep p hpn (ps ++ x)
    show (splitChar sep (p :: (ps ++ x))).map trim = _
    rw [hcons, List.map_cons, trim_cons_ws hp]
    have ih := mapTrim_split_conss sep hsep ps (fun a ha => h a (by simp [ha])) x
    rw [hs, List.map_cons] at ih
    exact ih

theorem mapTrim_split_trim (sep : Char) (hsep : wsChar sep = false) (l : Str) :
    (splitChar sep (trim l)).map trim = (splitChar sep l).map trim := by
  have hdec : l = trimR l ++ (l.reverse.takeWhile wsChar).reverse := by
    unfold trimR
    rw [← List.reverse_append]
    rw [show (List.takeWhile wsChar l.reverse) ++ (List.dropWhile wsChar l.reverse)
          = l.reverse from List.takeWhile_append_dropWhile wsChar l.reverse]
    simp
  have hws : ∀ a ∈ (l.reverse.takeWhile wsChar).reverse, wsChar a = true := by
    intro a ha
    rw [List.mem_reverse] at ha
    exact List.mem_takeWhile_imp ha
  have h1 : (splitChar sep l).map trim = (splitChar sep (trimR l)).map trim := by
    conv_lhs => rw [hdec]
    exact mapTrim_split_snocs sep hsep _ hws _
  have hdec2 : trimR l = (trimR l).takeWhile wsChar ++ trim l := by
    unfold trim trimL
    rw [List.takeWhile_append_dropWhile]
  have hws2 : ∀ a ∈ (trimR l).takeWhile wsChar, wsChar a = true :=
    fun a ha => List.mem_takeWhile_imp ha
  have h2 : (splitChar sep (trimR l)).map trim = (splitChar sep (trim l)).map trim := by
    conv_lhs => rw [hdec2]
    exact mapTrim_split_conss sep hsep _ hws2 _
  rw [h1, h2]

theorem mem_dropWhile {c : Char} {p : Char → Bool} (hc : p c = false) :
    ∀ {l : Str}, c ∈ l → c ∈ l.dropWhile p
  | a :: l, h => by
    by_cases ha : p a = true
    · rw [List.dropWhile_cons_of_pos ha]
      rcases List.mem_cons.mp h with h1 | h2
      · subst h1; rw [hc] at ha; cases ha
      · exact mem_dropWhile hc h2
    · rw [List.dropWhile_cons_of_neg ha]
      exact h

theorem mem_trim {c : Char} (hc : wsChar c = false) {l : Str} (h : c ∈ l) :
    c ∈ trim l := by
  unfold trim trimL trimR
  exact mem_dropWhile hc (by rw [List.mem_reverse]
                             exact mem_dropWhile hc (List.mem_reverse.mpr h))

/-- **C7** (confirmed).  For a string containing a comma that is not
bracket-shaped (the source's JSON-array test on the trimmed string), the
normalizer returns exactly the comma-separated parts of the original
string, each trimmed, in order, with empty parts removed. -/
theorem c7_comma_split (s : Str)
    (hc : containsC s ',' = true)
    (hb : (startsW (trim s) (sd "[") && endsW (trim s) (sd "]")) = false) :
    parseFileInput (.jstr s) = ((splitChar ',' s).map trim).filter (· ≠ []) := by
  have hmem : ',' ∈ s := by
    unfold containsC at hc
    rw [List.any_eq_true] at hc
    obtain ⟨x, hx, he⟩ := hc
    rw [decide_eq_true_eq] at he
    rw [← he]
    exact hx
  have hmt : ',' ∈ trim s := mem_trim (by decide) hmem
  have hsne : s ≠ [] := by intro e; rw [e] at hmem; simp at hmem
  have htne : trim s ≠ [] := by intro e; rw [e] at hmt; simp at hmt
  have hct : containsC (trim s) ',' = true := by
    unfold containsC
    rw [List.any_eq_true]
    exact ⟨',', hmt, by simp⟩
  unfold parseFileInput
  rw [if_neg (by simp [truthy, hsne])]
  show parseStrTokens s = _
  unfold parseStrTokens
  rw [if_neg htne, hb]
  show commaOrSingle (trim s) = _
  unfold commaOrSingle
  rw [if_pos hct, mapTrim_split_trim ',' (by decide) s]

/-- Witness for `c7_comma_split` on `"file_a , https://x/y.pdf ,,"`. -/
theorem c7_comma_split_witness :
    parseFileInput (js "file_a , https://x/y.pdf ,,")
      = ((splitChar ',' (sd "file_a , https://x/y.pdf ,,")).map trim).filter
          (· ≠ []) ∧
    parseFileInput (js "file_a , https://x/y.pdf ,,")
      = [sd "file_a", sd "https://x/y.pdf"] :=
  ⟨c7_comma_split (sd "file_a , https://x/y.pdf ,,") (by decide) (by decide),
   by decide⟩

theorem parseArrTokens_fixed : ∀ ts : List Str,
    (∀ t ∈ ts, t ≠ [] ∧ trim t = t ∧ t ≠ sd "[object Object]") →
    parseArrTokens (ts.map JVal.jstr) = ts
  | [], _ => rfl
  | t :: ts, h => by
    have ht := h t (by simp)
    have ih := parseArrTokens_fixed ts (fun x hx => h x (by simp [hx]))
    unfold parseArrTokens flat1 at *
    rw [List.map_cons, List.flatMap_cons]
    show (((JVal.jstr t :: (ts.map JVal.jstr).flatMap _).map arrElemToStr).filter _) = _
    rw [List.map_cons, List.filter_cons]
    have harr : arrElemToStr (JVal.jstr t) = t := by
      show trim (toStrJS (JVal.jstr t)) = t
      rw [show toStrJS (JVal.jstr t) = t from rfl, ht.2.1]
    rw [harr]
    rw [if_pos (by simp [ht.1, ht.2.2])]
    rw [ih]

/-- **C8** (confirmed).  Re-normalizing an already-normalized list of plain
tokens (non-empty, trimmed, comma-free, not bracket-shaped, not the
`[object Object]` sentinel) returns the same list unchanged. -/
theorem c8_idempotent (ts : List Str)
    (h : ∀ t ∈ ts, t ≠ [] ∧ trim t = t ∧ containsC t ',' = false ∧
      startsW t (sd "[") = false ∧ t ≠ sd "[object Object]") :
    parseFileInput (.jarr (ts.map JVal.jstr)) = ts := by
  unfold parseFileInput
  rw [if_neg (by simp [truthy])]
  exact parseArrTokens_fixed ts
    (fun t ht => ⟨(h t ht).1, (h t ht).2.1, (h t ht).2.2.2.2⟩)

/-- Witness for `c8_idempotent` on `["file_1", "https://x/y.pdf"]`. -/
theorem c8_idempotent_witness :
    parseFileInput (.jarr [js "file_1", js "https://x/y.pdf"])
      = [sd "file_1", sd "https://x/y.pdf"] :=
  c8_idempotent [sd "file_1", sd "https://x/y.pdf"] (by decide)

/-- A string or number value (the element shapes on which the two
normalization paths agree). -/
def strOrNum : JVal → Bool
  | .jstr _ => true
  | .jnum _ => true
  | _ => false

theorem flat1_cons_strnum (x : JVal) (xs : List JVal) (hx : strOrNum x = true) :
    flat1 (x :: xs) = x :: flat1 xs := by
  cases x <;> first | rfl | exact absurd hx (by simp [strOrNum])

theorem arrElemToStr_strnum (x : JVal) (hx : strOrNum x = true) :
    arrElemToStr x = trim (toStrJS x) := by
  cases x <;> first | rfl | exact absurd hx (by simp [strOrNum])

theorem strnum_tokens : ∀ xs : List JVal,
    (∀ x ∈ xs, strOrNum x = true ∧ trim (toStrJS x) ≠ sd "[object Object]") →
    ((xs.map fun x => trim (toStrJS x)).filter (· ≠ [])) = parseArrTokens xs
  | [], _ => rfl
  | x :: xs, h => by
    have hx := h x (by simp)
    have ih := strnum_tokens xs (fun y hy => h y (by simp [hy]))
    have hstep : parseArrTokens (x :: xs) =
        if trim (toStrJS x) = [] then parseArrTokens xs
        else trim (toStrJS x) :: parseArrTokens xs := by
      unfold parseArrTokens
      rw [flat1_cons_strnum x xs hx.1]
      simp only [List.map_cons, List.filter_cons, arrElemToStr_strnum x hx.1]
      by_cases hne : trim (toStrJS x) = []
      · rw [if_neg (by simp [hne]), if_pos hne]
      · rw [if_pos (by simp [hne, hx.2]), if_neg hne]
    rw [List.map_cons, List.filter_cons, hstep]
    by_cases hne : trim (toStrJS x) = []
    · rw [if_neg (by simp [hne]), if_pos hne, ih]
    · rw [if_pos (by simp [hne]), if_neg hne, ih]

/-- **C3** (amended).  For a syntactically valid JSON array string, the
string path and the parsed-array path of `parseFileInput` agree whenever
every element is a string or a number whose rendering does not trim to the
`[object Object]` sentinel.  They disagree on keyed-object elements: the
string path stringifies objects to the sentinel and keeps it, while the
array path extracts `url`/`path`/`value` (or serializes) and drops the
sentinel. -/
theorem c3_amended (s : Str) (xs : List JVal)
    (hb : (startsW (trim s) (sd "[") && endsW (trim s) (sd "]")) = true)
    (hp : jsonParse (trim s) = some (.jarr xs))
    (hx : ∀ x ∈ xs, strOrNum x = true ∧ trim (toStrJS x) ≠ sd "[object Object]") :
    parseFileInput (.jstr s) = parseFileInput (.jarr xs) := by
  have hts : trim s ≠ [] := by
    intro e
    rw [e] at hb
    exact absurd hb (by decide)
  have hsne : s ≠ [] := fun e => hts (by rw [e]; rfl)
  unfold parseFileInput
  rw [if_neg (by simp [truthy, hsne]), if_neg (by simp [truthy])]
  show parseStrTokens s = parseArrTokens xs
  unfold parseStrTokens
  rw [if_neg hts, hb]
  show (match jsonParse (trim s) with
        | some (.jarr ys) => (ys.map (fun x => trim (toStrJS x))).filter (· ≠ [])
        | some _ => commaOrSingle (trim s)
        | none => match scanMatches (trim s) with
                  | [] => commaOrSingle (trim s)
                  | ms => ms) = _
  rw [hp]
  exact strnum_tokens xs hx

/-- **C3** (counterexample).  On the valid JSON array string
`'[{"url":"a"}]'` the string path keeps the `[object Object]` rendering of
the object element, while normalizing the parsed array extracts `"a"` —
the two paths differ on keyed-object elements. -/
theorem c3_counterexample :
    parseFileInput (js "[\x7b\"url\":\"a\"\x7d]") = [sd "[object Object]"] ∧
    parseFileInput (.jarr [.jobj [(sd "url", js "a")]]) = [sd "a"] ∧
    jsonParse (trim (sd "[\x7b\"url\":\"a\"\x7d]"))
      = some (.jarr [.jobj [(sd "url", js "a")]]) :=
  ⟨rfl, rfl, rfl⟩

/-- Witness for `c3_amended` on `'["file_1", 2]'`. -/
theorem c3_amended_witness :
    parseFileInput (js "[\"file_1\", 2]")
      = parseFileInput (.jarr [js "file_1", .jnum 2]) :=
  c3_amended (sd "[\"file_1\", 2]") [js "file_1", .jnum 2]
    (by decide) rfl (by decide)

theorem goodTok_arrElem (item : JVal) (hne : arrElemToStr item ≠ []) :
    goodTok (arrElemToStr item) := by
  cases item with
  | jobj fs =>
    unfold arrElemToStr at hne ⊢
    by_cases h1 : truthyProp (.jobj fs) (sd "url") = true
    · rw [if_pos h1] at hne ⊢; exact goodTok_of_trim hne
    · rw [if_neg h1] at hne ⊢
      by_cases h2 : truthyProp (.jobj fs) (sd "path") = true
      · rw [if_pos h2] at hne ⊢; exact goodTok_of_trim hne
      · rw [if_neg h2] at hne ⊢
        by_cases h3 : truthyProp (.jobj fs) (sd "value") = true
        · rw [if_pos h3] at hne ⊢; exact goodTok_of_trim hne
        · rw [if_neg h3] at hne ⊢
          have hj : jsonStringify (.jobj fs) = '{' :: (joinFields fs ++ ['}']) := by
            simp [jsonStringify]
          rw [hj]
          exact goodTok_cons (by decide)
  | jarr xs =>
    unfold arrElemToStr at hne ⊢
    by_cases h1 : truthyProp (.jarr xs) (sd "url") = true
    · rw [if_pos h1] at hne ⊢; exact goodTok_of_trim hne
    · rw [if_neg h1] at hne ⊢
      by_cases h2 : truthyProp (.jarr xs) (sd "path") = true
      · rw [if_pos h2] at hne ⊢; exact goodTok_of_trim hne
      · rw [if_neg h2] at hne ⊢
        by_cases h3 : truthyProp (.jarr xs) (sd "value") = true
        · rw [if_pos h3] at hne ⊢; exact goodTok_of_trim hne
        · rw [if_neg h3] at hne ⊢
          have hj : jsonStringify (.jarr xs) = '[' :: (joinArr xs ++ [']']) := by
            simp [jsonStringify]
          rw [hj]
          exact goodTok_cons (by decide)
  | jnull => exact goodTok_of_trim hne
  | jbool b => exact goodTok_of_trim hne
  | jnum q => exact goodTok_of_trim hne
  | jstr s => exact goodTok_of_trim hne

theorem parseArrTokens_good (items : List JVal) :
    ∀ t ∈ parseArrTokens items, goodTok t := by
  intro t ht
  unfold parseArrTokens at ht
  rw [List.mem_filter] at ht
  obtain ⟨hmem, hpred⟩ := ht
  rw [List.mem_map] at hmem
  obtain ⟨item, _, rfl⟩ := hmem
  refine goodTok_arrElem item fun e => ?_
  rw [e] at hpred
  simp at hpred

theorem goodTok_of_mem_trim_filter {α : Type} (g : α → Str) (l : List α) :
    ∀ t ∈ (l.map fun x => trim (g x)).filter (· ≠ []), goodTok t := by
  intro t ht
  rw [List.mem_filter] at ht
  obtain ⟨hmem, hpred⟩ := ht
  rw [List.mem_map] at hmem
  obtain ⟨x, _, rfl⟩ := hmem
  exact goodTok_of_trim (by simpa using hpred)

theorem tryUrlPre_some (body : Char → Bool) (pre l m r : Str)
    (h : tryUrlPre body pre l = some (m, r)) :
    m = pre ++ (l.drop pre.length).takeWhile body := by
  unfold tryUrlPre at h
  by_cases h1 : List.isPrefixOf pre l = true
  · simp only [h1, if_true] at h
    by_cases h2 : (l.drop pre.length).takeWhile body = []
    · rw [if_pos h2] at h; cases h
    · rw [if_neg h2] at h; cases h; rfl
  · rw [if_neg h1] at h; cases h

theorem matchUrlAt_good (body : Char → Bool) (l m r : Str)
    (h : matchUrlAt body l = some (m, r)) : goodTok m := by
  unfold matchUrlAt at h
  cases hu : tryUrlPre body (sd "https://") l with
  | some pr =>
    rw [hu] at h
    cases h
    rw [tryUrlPre_some body (sd "https://") l m r hu]
    exact goodTok_cons (by decide)
  | none =>
    rw [hu] at h
    rw [tryUrlPre_some body (sd "http://") l m r h]
    exact goodTok_cons (by decide)

theorem matchFileAt_good (l m r : Str)
    (h : matchFileAt l = some (m, r)) : goodTok m := by
  unfold matchFileAt at h
  by_cases h1 : List.isPrefixOf (sd "file_") l = true
  · simp only [h1, if_true] at h
    by_cases h2 : (l.drop 5).takeWhile isAlnum = []
    · rw [if_pos h2] at h; cases h
    · rw [if_neg h2] at h
      cases h
      exact goodTok_cons (by decide)
  · rw [if_neg h1] at h; cases h

theorem matchTokAt_good (l m r : Str)
    (h : matchTokAt l = some (m, r)) : goodTok m := by
  unfold matchTokAt at h
  cases hu : matchUrlAt urlBodyA l with
  | some pr =>
    rw [hu] at h
    cases h
    exact matchUrlAt_good urlBodyA l _ _ hu
  | none =>
    rw [hu] at h
    exact matchFileAt_good l m r h

theorem scanAux_good : ∀ (fu : Nat) (l : Str), ∀ t ∈ scanAux fu l, goodTok t
  | 0, l => by simp [scanAux]
  | fu + 1, [] => by simp [scanAux]
  | fu + 1, c :: tail => by
    intro t ht
    unfold scanAux at ht
    cases hm : matchTokAt (c :: tail) with
    | some pr =>
      obtain ⟨m, rest⟩ := pr
      rw [hm] at ht
      rcases List.mem_cons.mp ht with h1 | h2
      · rw [h1]; exact matchTokAt_good (c :: tail) m rest hm
      · exact scanAux_good fu rest t h2
    | none =>
      rw [hm] at ht
      exact scanAux_good fu tail t ht

theorem commaOrSingle_good (y : Str) (h : trim y ≠ []) :
    ∀ t ∈ commaOrSingle (trim y), goodTok t := by
  intro t ht
  unfold commaOrSingle at ht
  by_cases hc : containsC (trim y) ',' = true
  · rw [if_pos hc] at ht
    exact goodTok_of_mem_trim_filter (fun p => p) _ t (by simpa using ht)
  · rw [if_neg hc] at ht
    rcases List.mem_singleton.mp ht with rfl
    exact goodTok_of_trim h

theorem parseStrTokens_good (s : Str) : ∀ t ∈ parseStrTokens s, goodTok t := by
  intro t ht
  unfold parseStrTokens at ht
  by_cases h0 : trim s = []
  · rw [if_pos h0] at ht; simp at ht
  · rw [if_neg h0] at ht
    by_cases hbr : (startsW (trim s) (sd "[") && endsW (trim s) (sd "]")) = true
    · rw [if_pos hbr] at ht
      cases hp : jsonParse (trim s) with
      | some v =>
        rw [hp] at ht
        cases v with
        | jarr xs => exact goodTok_of_mem_trim_filter toStrJS xs t ht
        | jnull => exact commaOrSingle_good s h0 t ht
        | jbool b => exact commaOrSingle_good s h0 t ht
        | jnum q => exact commaOrSingle_good s h0 t ht
        | jstr u => exact commaOrSingle_good s h0 t ht
        | jobj fs => exact commaOrSingle_good s h0 t ht
      | none =>
        rw [hp] at ht
        cases hsc : scanMatches (trim s) with
        | nil => rw [hsc] at ht; exact commaOrSingle_good s h0 t ht
        | cons m ms =>
          rw [hsc] at ht
          have : t ∈ scanMatches (trim s) := by rw [hsc]; exact ht
          exact scanAux_good _ _ t this
    · rw [if_neg hbr] at ht
      exact commaOrSingle_good s h0 t ht

theorem fallbackTokens_good (v : JVal) : ∀ t ∈ fallbackTokens v, goodTok t := by
  intro t ht
  unfold fallbackTokens at ht
  by_cases hc : trim (toStrJS v) ≠ [] ∧ trim (toStrJS v) ≠ sd "[object Object]" ∧
      trim (toStrJS v) ≠ sd "undefined" ∧ trim (toStrJS v) ≠ sd "null"
  · rw [if_pos hc] at ht
    rcases List.mem_singleton.mp ht with rfl
    exact goodTok_of_trim hc.1
  · rw [if_neg hc] at ht
    simp at ht

/-- The one shape on which the invariant fails: a keyed object (without an
array-valued `data`/`body` field) whose first truthy `url`/`path`/`value`
property stringifies-and-trims to the empty string — the object branch
returns that empty token unfiltered (lines 1372-1374). -/
def badObj (v : JVal) : Bool :=
  match v with
  | .jobj _ =>
    (match getProp v (sd "data") with | some (.jarr _) => false | _ => true) &&
    (match getProp v (sd "body") with | some (.jarr _) => false | _ => true) &&
    (match propPick v with
     | some w => trim (toStrJS w) = []
     | none => false)
  | _ => false

theorem c4_pick (fs : List (Str × JVal)) (t : Str)
    (hpk2 : ∀ w, propPick (.jobj fs) = some w → trim (toStrJS w) ≠ [])
    (ht : t ∈ (match propPick (.jobj fs) with
               | some w => [trim (toStrJS w)]
               | none => fallbackTokens (.jobj fs))) : goodTok t := by
  cases hpk : propPick (.jobj fs) with
  | some w =>
    rw [hpk] at ht
    rcases List.mem_singleton.mp ht with rfl
    exact goodTok_of_trim (hpk2 w hpk)
  | none =>
    rw [hpk] at ht
    exact fallbackTokens_good _ t ht

theorem c4_obj_tail (fs : List (Str × JVal)) (t : Str)
    (hpp : ∀ w, propPick (.jobj fs) = some w → trim (toStrJS w) = [] →
      ∃ b, getProp (.jobj fs) (sd "body") = some (.jarr b))
    (ht : t ∈ (match getProp (.jobj fs) (sd "body") with
       | some (.jarr b) => parseArrTokens b
       | _ => (match propPick (.jobj fs) with
               | some w => [trim (toStrJS w)]
               | none => fallbackTokens (.jobj fs)))) : goodTok t := by
  cases hbb : getProp (.jobj fs) (sd "body") with
  | some w0 =>
    cases w0 with
    | jarr b =>
      rw [hbb] at ht
      exact parseArrTokens_good b t ht
    | jnull =>
      rw [hbb] at ht
      exact c4_pick fs t (fun w hw1 hw2 => by
        obtain ⟨b, hbeq⟩ := hpp w hw1 hw2
        rw [hbb] at hbeq
        cases hbeq) ht
    | jbool b0 =>
      rw [hbb] at ht
      exact c4_pick fs t (fun w hw1 hw2 => by
        obtain ⟨b, hbeq⟩ := hpp w hw1 hw2
        rw [hbb] at hbeq
        cases hbeq) ht
    | jnum q =>
      rw [hbb] at ht
      exact c4_pick fs t (fun w hw1 hw2 => by
        obtain ⟨b, hbeq⟩ := hpp w hw1 hw2
        rw [hbb] at hbeq
        cases hbeq) ht
    | jstr u =>
      rw [hbb] at ht
      exact c4_pick fs t (fun w hw1 hw2 => by
        obtain ⟨b, hbeq⟩ := hpp w hw1 hw2
        rw [hbb] at hbeq
        cases hbeq) ht
    | jobj g =>
      rw [hbb] at ht
      exact c4_pick fs t (fun w hw1 hw2 => by
        obtain ⟨b, hbeq⟩ := hpp w hw1 hw2
        rw [hbb] at hbeq
        cases hbeq) ht
  | none =>
    rw [hbb] at ht
    exact c4_pick fs t (fun w hw1 hw2 => by
      obtain ⟨b, hbeq⟩ := hpp w hw1 hw2
      rw [hbb] at hbeq
      cases hbeq) ht

/-- **C4** (amended).  For every input that is not a `badObj`-shaped keyed
object, every token produced by `parseFileInput` is non-empty and not
whitespace-only; on a `badObj` input the object branch yields a single
empty-string token. -/
theorem c4_amended (v : JVal) (hb : badObj v = false) :
    ∀ t ∈ parseFileInput v, t ≠ [] ∧ trimL t ≠ [] := by
  intro t ht
  suffices h : goodTok t from h
  unfold parseFileInput at ht
  by_cases htr : truthy v = false
  · rw [if_pos htr] at ht; simp at ht
  · rw [if_neg htr] at ht
    cases v with
    | jarr items => exact parseArrTokens_good items t ht
    | jstr s => exact parseStrTokens_good s t ht
    | jnull => exact absurd rfl htr
    | jbool b => exact fallbackTokens_good _ t ht
    | jnum q => exact fallbackTokens_good _ t ht
    | jobj fs =>
      unfold badObj at hb
      have hpp0 : ∀ w0, getProp (.jobj fs) (sd "data") = some w0 →
          (∀ d, w0 ≠ .jarr d) →
          ∀ w, propPick (.jobj fs) = some w → trim (toStrJS w) = [] →
          ∃ b, getProp (.jobj fs) (sd "body") = some (.jarr b) := by
        intro w0 hdd hnarr w hw1 hw2
        rw [hdd, hw1] at hb
        simp only [hw2] at hb
        cases hbq : getProp (.jobj fs) (sd "body") with
        | some w1 =>
          cases w1 with
          | jarr b => exact ⟨b, rfl⟩
          | jnull => rw [hbq] at hb; cases w0 <;> simp_all
          | jbool b1 => rw [hbq] at hb; cases w0 <;> simp_all
          | jnum q1 => rw [hbq] at hb; cases w0 <;> simp_all
          | jstr u1 => rw [hbq] at hb; cases w0 <;> simp_all
          | jobj g1 => rw [hbq] at hb; cases w0 <;> simp_all
        | none => rw [hbq] at hb; cases w0 <;> simp_all
      have hppn : getProp (.jobj fs) (sd "data") = none →
          ∀ w, propPick (.jobj fs) = some w → trim (toStrJS w) = [] →
          ∃ b, getProp (.jobj fs) (sd "body") = some (.jarr b) := by
        intro hdd w hw1 hw2
        rw [hdd, hw1] at hb
        simp only [hw2] at hb
        cases hbq : getProp (.jobj fs) (sd "body") with
        | some w1 =>
          cases w1 with
          | jarr b => exact ⟨b, rfl⟩
          | jnull => rw [hbq] at hb; simp_all
          | jbool b1 => rw [hbq] at hb; simp_all
          | jnum q1 => rw [hbq] at hb; simp_all
          | jstr u1 => rw [hbq] at hb; simp_all
          | jobj g1 => rw [hbq] at hb; simp_all
        | none => rw [hbq] at hb; simp_all
      cases hdd : getProp (.jobj fs) (sd "data") with
      | some w0 =>
        cases w0 with
        | jarr d =>
          rw [hdd] at ht
          exact parseArrTokens_good d t ht
        | jnull =>
          rw [hdd] at ht
          exact c4_obj_tail fs t (hpp0 _ hdd (by intro d h; cases h)) ht
        | jbool b0 =>
          rw [hdd] at ht
          exact c4_obj_tail fs t (hpp0 _ hdd (by intro d h; cases h)) ht
        | jnum q0 =>
          rw [hdd] at ht
          exact c4_obj_tail fs t (hpp0 _ hdd (by intro d h; cases h)) ht
        | jstr u0 =>
          rw [hdd] at ht
          exact c4_obj_tail fs t (hpp0 _ hdd (by intro d h; cases h)) ht
        | jobj g0 =>
          rw [hdd] at ht
          exact c4_obj_tail fs t (hpp0 _ hdd (by intro d h; cases h)) ht
      | none =>
        rw [hdd] at ht
        exact c4_obj_tail fs t (hppn hdd) ht

/-- **C4** (counterexample).  A keyed object whose `url` property is a
whitespace-only (truthy) string makes `parseFileInput` return a single
empty-string token — the claimed invariant fails on the object branch. -/
theorem c4_counterexample :
    parseFileInput (.jobj [(sd "url", js " ")]) = [([] : Str)] :=
  rfl

/-- Witness for `c4_amended` on the plain string input `" file_a "`. -/
theorem c4_amended_witness :
    (sd "file_a") ∈ parseFileInput (js " file_a ") ∧
    (sd "file_a") ≠ [] ∧ trimL (sd "file_a") ≠ [] :=
  ⟨by decide, c4_amended (js " file_a ") rfl (sd "file_a") (by decide)⟩
